import Mathlib

/-!
Verification development for the maker-based scalping engine
(`src/public/js/scalping.js` of the Bybit-Trading repository).

The JavaScript strategy engine is shallowly embedded as pure Lean
functions over exact rational arithmetic:

* JS numbers that hold prices, quantities and P/L are modelled as `ℚ`
  (the code's `roundToTick` re-serialises prices with exactly the number
  of decimals implied by the tick, so on tick-aligned values the
  `toFixed`/`parseFloat` step is the identity and is modelled as such);
* timestamps (`Date.now()`) are naturals counting milliseconds;
* the five adapter operations (`placeLimitOrder`, `placeMarketOrder`,
  `cancelOrder`, `checkOrderStatus`, `fetchOrderbook`) are awaits whose
  responses are supplied by an `Env` oracle: order statuses are keyed by
  order id, order placements are keyed by the index of the placement
  call within the modelled scope, and the two `fetchOrderbook` call
  sites inside one tick get one slot each (`obMain` for the main-loop
  fetch, `obMS` for the at-most-one fetch inside
  `checkMarketSellStatus`).  `cancelOrder`'s boolean result is ignored
  by every state mutation in the source, so cancels are not modelled as
  oracle calls.

Each `def` mirrors the JS function of the same name statement by
statement; comments quote the corresponding source behaviour.
-/

namespace Scalping

/-- Instrument/session configuration (`this.config` in the source).
Fields that the strategy state machine never reads (API credentials,
symbol, category, `loopInterval`) are omitted. -/
structure Config where
  tickSize : ℚ
  maxBuyOrders : ℕ
  offsetTicks : ℕ
  layerStepTicks : ℕ
  buyTTL : ℕ            -- seconds
  repriceTicks : ℕ
  tpTicks : ℕ
  maxSellTPOrders : ℕ
  orderQty : ℚ
  waitAfterBuyFill : ℕ  -- milliseconds
  sellAllOnStop : Bool
  deriving Repr, DecidableEq

/-- One open BUY limit order of the in-memory book
(elements of `this.activeBuyOrders`). -/
structure BuyOrder where
  orderId : ℕ
  price : ℚ
  qty : ℚ
  filledQty : ℚ
  timestamp : ℕ
  layer : ℕ
  deriving Repr, DecidableEq

def defaultBuyOrder : BuyOrder := ⟨0, 0, 0, 0, 0, 0⟩

/-- One open SELL take-profit order (elements of `this.activeSellTPOrders`). -/
structure TPOrder where
  orderId : ℕ
  price : ℚ
  qty : ℚ
  buyPrice : ℚ
  timestamp : ℕ
  deriving Repr, DecidableEq

def defaultTPOrder : TPOrder := ⟨0, 0, 0, 0, 0⟩

/-- Entry of `this.stats.pendingPositions`. -/
structure PendingPosition where
  orderId : ℕ
  buyPrice : ℚ
  qty : ℚ
  sellPrice : ℚ
  deriving Repr, DecidableEq

/-- `this.pendingMarketSell`.  In the source `isLimitFallback` and
`limitPrice` are absent (hence falsy) until the limit-fallback
conversion sets them; they are modelled as `false` / `0` at creation. -/
structure PendingMarketSell where
  orderId : ℕ
  qty : ℚ
  buyPrice : ℚ
  originalTPPrice : ℚ
  timestamp : ℕ
  isLimitFallback : Bool
  limitPrice : ℚ
  deriving Repr, DecidableEq

/-- `this.pendingNewTP`. -/
structure PendingNewTP where
  buyPrice : ℚ
  qty : ℚ
  deriving Repr, DecidableEq

/-- `this.stats`.  `totalFees` is never mutated in the source and is omitted. -/
structure Stats where
  totalBuyOrdersCreated : ℕ
  totalBuyOrdersFilled : ℕ
  totalBuyOrdersCanceled : ℕ
  totalSellOrdersCreated : ℕ
  totalSellOrdersFilled : ℕ
  totalSellOrdersCanceled : ℕ
  realProfit : ℚ
  pendingPositions : List PendingPosition
  deriving Repr, DecidableEq

/-- The mutable fields of the `ScalpingBot` singleton. -/
structure BotState where
  isRunning : Bool
  isPaused : Bool
  activeBuyOrders : List BuyOrder
  activeSellTPOrders : List TPOrder
  lastBuyFillTime : ℕ
  isWaitingForMarketSell : Bool
  pendingMarketSell : Option PendingMarketSell
  pendingNewTP : Option PendingNewTP
  stats : Stats
  deriving Repr, DecidableEq

def initStats : Stats := ⟨0, 0, 0, 0, 0, 0, 0, []⟩

/-- The state right after `start()` on a fresh bot. -/
def initialState : BotState :=
  ⟨true, false, [], [], 0, false, none, none, initStats⟩

/-- Result of `checkOrderStatus` as consumed by the strategy
(`{filled, partiallyFilled, filledQty}` in the source). -/
structure OrderStatus where
  filled : Bool
  partlyFilled : Bool   -- the source calls this field partiallyFilled
  filledQty : ℚ
  deriving Repr, DecidableEq

/-- Best-bid/best-ask snapshot returned by `fetchOrderbook`. -/
structure Orderbook where
  bestBid : ℚ
  bestAsk : ℚ
  deriving Repr, DecidableEq

/-- Oracle for one tick's adapter responses. -/
structure Env where
  now : ℕ
  status : ℕ → OrderStatus       -- by order id
  place : ℕ → Option ℕ           -- by placement-call index, yields order id
  obMain : Option Orderbook      -- the main-loop fetchOrderbook
  obMS : Option Orderbook        -- the fetchOrderbook inside checkMarketSellStatus

/-- `roundToTick(price)`: `Math.round(price / tickSize) * tickSize`,
with JS `Math.round` being `⌊x + 1/2⌋`.  The subsequent
`parseFloat(rounded.toFixed(decimals))` is the identity on exact
multiples of a power-of-ten tick and is modelled as such. -/
def roundToTick (cfg : Config) (price : ℚ) : ℚ :=
  ((price / cfg.tickSize + 1/2).floor : ℚ) * cfg.tickSize

/-- `calculateLayerPrice(bestBid, layerIndex)` exactly as in the source:
`offsetPrice = bestBid + offsetTicks*tickSize;
 layerPrice = offsetPrice - layerIndex*layerStepTicks*tickSize` —
note the `+` and the absence of rounding. -/
def calculateLayerPrice (cfg : Config) (bestBid : ℚ) (layerIndex : ℕ) : ℚ :=
  (bestBid + (cfg.offsetTicks : ℚ) * cfg.tickSize) -
    (layerIndex : ℚ) * (cfg.layerStepTicks : ℚ) * cfg.tickSize

/-- The BUY price `createBuyOrders` computes for a layer:
`roundToTick(bestBid - (offsetTicks + layer*layerStepTicks)*tickSize)`. -/
def buyPriceForLayer (cfg : Config) (bestBid : ℚ) (layer : ℕ) : ℚ :=
  roundToTick cfg
    (bestBid - ((cfg.offsetTicks + layer * cfg.layerStepTicks : ℕ) : ℚ) * cfg.tickSize)

/-- The spec's wording of the layer price:
`layerPrice(bestBid, layer) = roundToTick(bestBid - (offsetTicks + layer*layerStepTicks)*tickSize)`. -/
def layerPriceSpec (cfg : Config) (bestBid : ℚ) (layer : ℕ) : ℚ :=
  roundToTick cfg
    (bestBid - ((cfg.offsetTicks : ℚ) + (layer : ℚ) * (cfg.layerStepTicks : ℚ)) * cfg.tickSize)

/-- The TP price `roundToTick(buyPrice + tpTicks*tickSize)` used at every
TP-creation site of the source. -/
def tpPriceOf (cfg : Config) (buyPrice : ℚ) : ℚ :=
  roundToTick cfg (buyPrice + (cfg.tpTicks : ℚ) * cfg.tickSize)

/-- Remove the first entry with the given order id: the source's
`findIndex(p => p.orderId === id)` followed by `splice(index, 1)`
(no-op when the id is absent). -/
def removeFirstByOrderId : List PendingPosition → ℕ → List PendingPosition
  | [], _ => []
  | p :: rest, oid => if p.orderId = oid then rest else p :: removeFirstByOrderId rest oid

/-- `removeFirstByOrderId` seen on the id sequence alone: drop the first
occurrence of `oid`. -/
def eraseFirstId : List ℕ → ℕ → List ℕ
  | [], _ => []
  | x :: xs, oid => if x = oid then xs else x :: eraseFirstId xs oid

/-- The scan of `createSellTPOrder`'s overflow branch: starting from best
index/price `best`, update the best on a strictly greater price
(`activeSellTPOrders[i].price > highestTPPrice`). -/
def highestScan : List TPOrder → ℕ → ℕ × ℚ → ℕ × ℚ
  | [], _, best => best
  | o :: rest, i, best =>
    if best.2 < o.price then highestScan rest (i + 1) (i, o.price)
    else highestScan rest (i + 1) best

/-- Index of the TP the overflow branch evicts: the first index attaining
the maximum price (the JS loop starts from index 0's price and only
moves on strict increase). -/
def highestTPIdx (l : List TPOrder) : ℕ :=
  match l with
  | [] => 0
  | o :: rest => (highestScan rest 1 (0, o.price)).1

/-- The TP-recording block the source repeats verbatim at every
successful `placeLimitOrder('Sell', …)`: bump `totalSellOrdersCreated`,
push the order onto `activeSellTPOrders` and shadow it in
`pendingPositions`. -/
def pushTP (cfg : Config) (env : Env) (buyPrice qty : ℚ) (orderId : ℕ)
    (s : BotState) : BotState :=
  let tpPrice := tpPriceOf cfg buyPrice
  let newTP : TPOrder := ⟨orderId, tpPrice, qty, buyPrice, env.now⟩
  let newPos : PendingPosition := ⟨orderId, buyPrice, qty, tpPrice⟩
  { s with
    activeSellTPOrders := s.activeSellTPOrders ++ [newTP],
    stats := { s.stats with
      totalSellOrdersCreated := s.stats.totalSellOrdersCreated + 1,
      pendingPositions := s.stats.pendingPositions ++ [newPos] } }

/-- `createSellTPOrder(buyPrice, qty)`.  `k` is the index of the next
order-placement call.  When the TP cap is reached the overflow branch
runs; the `[]` sub-case (possible only with `maxSellTPOrders = 0`)
makes the JS code throw on `activeSellTPOrders[0].price`, aborting the
rest of the caller's tick inside the loop's `try`; it is modelled as a
no-op, and no theorem below touches that degenerate configuration. -/
def createSellTPOrder (cfg : Config) (env : Env) (buyPrice qty : ℚ)
    (s : BotState) (k : ℕ) : BotState × ℕ :=
  if cfg.maxSellTPOrders ≤ s.activeSellTPOrders.length then
    match s.activeSellTPOrders with
    | [] => (s, k)
    | t :: ts =>
      let l := t :: ts
      let idx := highestTPIdx l
      let highestOrder := l.getD idx defaultTPOrder
      -- cancel ONLY the highest TP order
      let stats1 := { s.stats with
        totalSellOrdersCanceled := s.stats.totalSellOrdersCanceled + 1,
        pendingPositions := removeFirstByOrderId s.stats.pendingPositions highestOrder.orderId }
      let s1 := { s with
        activeSellTPOrders := l.eraseIdx idx,
        stats := stats1,
        isWaitingForMarketSell := true,
        pendingNewTP := some ⟨buyPrice, qty⟩ }
      -- place MARKET SELL for the canceled position
      match env.place k with
      | some marketOrderId =>
        let pms : PendingMarketSell :=
          ⟨marketOrderId, highestOrder.qty, highestOrder.buyPrice,
           highestOrder.price, env.now, false, 0⟩
        ({ s1 with pendingMarketSell := some pms }, k + 1)
      | none =>
        -- market sell failed, resume normal operation
        ({ s1 with isWaitingForMarketSell := false, pendingNewTP := none }, k + 1)
  else
    -- normal case: create new TP order for the current buy
    match env.place k with
    | some orderId => (pushTP cfg env buyPrice qty orderId s, k + 1)
    | none => (s, k + 1)

/-- The loop body of `updateBuyOrders`: iterate the snapshot of
`activeBuyOrders`, returning the kept orders plus the threaded state and
placement-call index.  `age >= buyTTL` on millisecond timestamps is
`timestamp + buyTTL*1000 ≤ now`; `tickDiff >= repriceTicks` is kept in
its source form `|price - bestBid| / tickSize ≥ repriceTicks`. -/
def updateBuyOrdersGo (cfg : Config) (env : Env) (bestBid : ℚ) :
    List BuyOrder → BotState → ℕ → List BuyOrder × BotState × ℕ
  | [], s, k => ([], s, k)
  | o :: rest, s, k =>
    let st := env.status o.orderId
    if st.filled then
      let s1 := { s with
        stats := { s.stats with totalBuyOrdersFilled := s.stats.totalBuyOrdersFilled + 1 },
        lastBuyFillTime := env.now }
      let r := createSellTPOrder cfg env o.price o.qty s1 k
      updateBuyOrdersGo cfg env bestBid rest r.1 r.2
    else
      let o1 := if st.partlyFilled then { o with filledQty := st.filledQty } else o
      if o.timestamp + cfg.buyTTL * 1000 ≤ env.now then
        -- TTL expiry: cancel; TP for any partial fill
        let s1 := { s with
          stats := { s.stats with totalBuyOrdersCanceled := s.stats.totalBuyOrdersCanceled + 1 } }
        let r :=
          if 0 < o1.filledQty then
            let s1' := { s1 with
              stats := { s1.stats with totalBuyOrdersFilled := s1.stats.totalBuyOrdersFilled + 1 },
              lastBuyFillTime := env.now }
            createSellTPOrder cfg env o1.price o1.filledQty s1' k
          else (s1, k)
        updateBuyOrdersGo cfg env bestBid rest r.1 r.2
      else if (cfg.repriceTicks : ℚ) ≤ |o1.price - bestBid| / cfg.tickSize then
        -- drift reprice: TP for any partial fill, then cancel
        let r :=
          if 0 < o1.filledQty then
            let s' := { s with
              stats := { s.stats with totalBuyOrdersFilled := s.stats.totalBuyOrdersFilled + 1 },
              lastBuyFillTime := env.now }
            createSellTPOrder cfg env o1.price o1.filledQty s' k
          else (s, k)
        let s2 := { r.1 with
          stats := { r.1.stats with totalBuyOrdersCanceled := r.1.stats.totalBuyOrdersCanceled + 1 } }
        updateBuyOrdersGo cfg env bestBid rest s2 r.2
      else
        let r := updateBuyOrdersGo cfg env bestBid rest s k
        (o1 :: r.1, r.2.1, r.2.2)

/-- `updateBuyOrders(bestBid)`. -/
def updateBuyOrders (cfg : Config) (env : Env) (bestBid : ℚ)
    (s : BotState) (k : ℕ) : BotState × ℕ :=
  let r := updateBuyOrdersGo cfg env bestBid s.activeBuyOrders s k
  ({ r.2.1 with activeBuyOrders := r.1 }, r.2.2)

/-- The conflict-detection/reshuffle step of one `createBuyOrders`
iteration: detect a half-tick price conflict of the computed layer price
`p0` against the current book, adjust the price up by one layer step and
retest against `existingPrices`, and relabel the conflicting order's
layer per the source's two switch cases.  Returns
(skip this layer?, price to post, possibly relabeled book). -/
def conflictAdjust (cfg : Config) (layer : ℕ) (p0 : ℚ)
    (buys : List BuyOrder) (existingPrices : List ℚ) : Bool × ℚ × List BuyOrder :=
  match buys.findIdx? (fun o => |o.price - p0| < cfg.tickSize / 2) with
  | none => (false, p0, buys)
  | some ci =>
    -- price conflict: adjust UP by layerStepTicks*tickSize and retest
    let conflictOrder := buys.getD ci defaultBuyOrder
    let p1 := roundToTick cfg (p0 + (cfg.layerStepTicks : ℚ) * cfg.tickSize)
    if existingPrices.any (fun q => |q - p1| < cfg.tickSize / 2) then
      (true, p1, buys)  -- still conflicts: skip this layer
    else if layer < conflictOrder.layer then
      (false, p1, buys.set ci { conflictOrder with layer := layer + 1 })
    else if conflictOrder.price < p1 then
      (false, p1, buys.set ci { conflictOrder with layer := layer })
    else
      (false, p1, buys)

/-- The layer loop of `createBuyOrders`.  `existingLayers` is the
snapshot `activeBuyOrders.map(o => o.layer)` taken before the loop (the
source never refreshes it); `existingPrices` starts as the price
snapshot and each non-skipped iteration appends its (possibly adjusted)
price; the conflict search however runs over the *current* book. -/
def createBuyLoop (cfg : Config) (env : Env) (bestBid : ℚ) (existingLayers : List ℕ) :
    List ℕ → List BuyOrder → List ℚ → Stats → ℕ → List BuyOrder × Stats × ℕ
  | [], buys, _, stats, k => (buys, stats, k)
  | layer :: more, buys, existingPrices, stats, k =>
    if existingLayers.contains layer then
      createBuyLoop cfg env bestBid existingLayers more buys existingPrices stats k
    else
      let step := conflictAdjust cfg layer (buyPriceForLayer cfg bestBid layer) buys existingPrices
      if step.1 then
        createBuyLoop cfg env bestBid existingLayers more buys existingPrices stats k
      else
        let buyPrice := step.2.1
        let buys1 := step.2.2
        let eps := existingPrices ++ [buyPrice]
        match env.place k with
        | some orderId =>
          let buys2 := buys1 ++ [⟨orderId, buyPrice, cfg.orderQty, 0, env.now, layer⟩]
          let stats2 := { stats with totalBuyOrdersCreated := stats.totalBuyOrdersCreated + 1 }
          if cfg.maxBuyOrders ≤ buys2.length then (buys2, stats2, k + 1)
          else createBuyLoop cfg env bestBid existingLayers more buys2 eps stats2 (k + 1)
        | none =>
          if cfg.maxBuyOrders ≤ buys1.length then (buys1, stats, k + 1)
          else createBuyLoop cfg env bestBid existingLayers more buys1 eps stats (k + 1)

/-- `createBuyOrders(bestBid)`: early return when the ladder is full or
the post-fill cooldown is active, otherwise run the layer loop over
`0..maxBuyOrders-1`. -/
def createBuyOrders (cfg : Config) (env : Env) (bestBid : ℚ)
    (s : BotState) (k : ℕ) : BotState × ℕ :=
  if s.activeBuyOrders.length < cfg.maxBuyOrders then
    if 0 < cfg.waitAfterBuyFill ∧ 0 < s.lastBuyFillTime ∧
        env.now - s.lastBuyFillTime < cfg.waitAfterBuyFill then
      (s, k)
    else
      let r := createBuyLoop cfg env bestBid (s.activeBuyOrders.map (·.layer))
        (List.range cfg.maxBuyOrders) s.activeBuyOrders
        (s.activeBuyOrders.map (·.price)) s.stats k
      ({ s with activeBuyOrders := r.1, stats := r.2.1 }, r.2.2)
  else (s, k)

/-- `checkMarketSellStatus()`: the cross-order waiting controller. -/
def checkMarketSellStatus (cfg : Config) (env : Env) (s : BotState) (k : ℕ) :
    BotState × ℕ :=
  match s.pendingMarketSell with
  | none => (s, k)
  | some pms =>
    let st := env.status pms.orderId
    if st.filled then
      -- estimate realised P/L at the freshly fetched bestBid (buyPrice when the fetch fails)
      let sellPrice := match env.obMS with
        | some ob => ob.bestBid
        | none => pms.buyPrice
      let s1 := { s with stats := { s.stats with
        realProfit := s.stats.realProfit + (sellPrice - pms.buyPrice) * pms.qty,
        totalSellOrdersFilled := s.stats.totalSellOrdersFilled + 1 } }
      let r2 :=
        match s1.pendingNewTP with
        | some p =>
          match env.place k with
          | some orderId => (pushTP cfg env p.buyPrice p.qty orderId s1, k + 1)
          | none => (s1, k + 1)
        | none => (s1, k)
      ({ r2.1 with
          isWaitingForMarketSell := false,
          pendingMarketSell := none,
          pendingNewTP := none }, r2.2)
    else if st.partlyFilled then
      (s, k)
    else
      if pms.timestamp + 30000 < env.now then
        -- 30 s timeout: cancel (best effort) and convert to a limit sell at the bid.
        -- This branch is NOT guarded by isLimitFallback in the source.
        match env.obMS with
        | none => (s, k)
        | some ob =>
          let limitPrice := roundToTick cfg ob.bestBid
          match env.place k with
          | some newOrderId =>
            ({ s with pendingMarketSell := some { pms with
                orderId := newOrderId, timestamp := env.now,
                isLimitFallback := true, limitPrice := limitPrice } }, k + 1)
          | none =>
            -- fallback limit failed: give up the wait, still create the pending TP
            let s1 := { s with isWaitingForMarketSell := false, pendingMarketSell := none }
            let r2 :=
              match s1.pendingNewTP with
              | some p =>
                -- createFallbackTP()
                match env.place (k + 1) with
                | some orderId => (pushTP cfg env p.buyPrice p.qty orderId s1, k + 2)
                | none => (s1, k + 2)
              | none => (s1, k + 1)
            ({ r2.1 with pendingNewTP := none }, r2.2)
      else if pms.isLimitFallback then
        if pms.timestamp + 10000 < env.now then
          match env.obMS with
          | none => (s, k)
          | some ob =>
            -- reprice only if the bid moved more than 2 ticks from the resting limit
            if cfg.tickSize * 2 < |ob.bestBid - pms.limitPrice| then
              let newLimitPrice := roundToTick cfg ob.bestBid
              match env.place k with
              | some newOrderId =>
                ({ s with pendingMarketSell := some { pms with
                    orderId := newOrderId, timestamp := env.now,
                    limitPrice := newLimitPrice } }, k + 1)
              | none => (s, k + 1)
            else (s, k)
        else (s, k)
      else (s, k)

/-- The removal loop of `updateSellTPOrders`: returns the kept TPs, the
number of removed (filled) TPs, and the threaded state. -/
def updateTPGo (env : Env) : List TPOrder → BotState → List TPOrder × ℕ × BotState
  | [], s => ([], 0, s)
  | o :: rest, s =>
    if (env.status o.orderId).filled then
      let s1 := { s with stats := { s.stats with
        totalSellOrdersFilled := s.stats.totalSellOrdersFilled + 1,
        realProfit := s.stats.realProfit + (o.price - o.buyPrice) * o.qty,
        pendingPositions := removeFirstByOrderId s.stats.pendingPositions o.orderId } }
      let r := updateTPGo env rest s1
      (r.1, r.2.1 + 1, r.2.2)
    else
      let r := updateTPGo env rest s
      (o :: r.1, r.2.1, r.2.2)

/-- `updateSellTPOrders()`: reconcile every open TP, then the
opportunistic pending-TP resolution when a fill freed a slot while
waiting for the market sell. -/
def updateSellTPOrders (cfg : Config) (env : Env) (s : BotState) (k : ℕ) :
    BotState × ℕ :=
  let r := updateTPGo env s.activeSellTPOrders s
  let kept := r.1
  let removed := r.2.1
  let s2 := { r.2.2 with activeSellTPOrders := kept }
  if s2.isWaitingForMarketSell && s2.pendingNewTP.isSome && removed != 0 then
    if kept.length < cfg.maxSellTPOrders then
      match s2.pendingNewTP with
      | some p =>
        match env.place k with
        | some orderId =>
          ({ pushTP cfg env p.buyPrice p.qty orderId s2 with pendingNewTP := none }, k + 1)
        | none => (s2, k + 1)
      | none => (s2, k)
    else (s2, k)
  else (s2, k)

/-- The wait-controller step at the top of `runMainLoop`. -/
def tickWaitStep (cfg : Config) (env : Env) (s : BotState) : BotState :=
  if s.isWaitingForMarketSell ∧ s.pendingMarketSell.isSome then
    (checkMarketSellStatus cfg env s 0).1
  else s

/-- One iteration of `runMainLoop` (the `isRunning` case does the work;
`stop()` clears `isRunning` so a stopped bot ticks to itself). -/
def tick (cfg : Config) (env : Env) (s : BotState) : BotState :=
  if s.isRunning then
    let s1 := tickWaitStep cfg env s
    match env.obMain with
    | none => s1
    | some ob =>
      if ¬s1.isPaused ∧ ¬s1.isWaitingForMarketSell then
        let r2 := updateBuyOrders cfg env ob.bestBid s1 0
        let r3 := createBuyOrders cfg env ob.bestBid r2.1 r2.2
        (updateSellTPOrders cfg env r3.1 r3.2).1
      else if s1.isWaitingForMarketSell then
        -- cancel any existing buy orders while waiting
        let s2 := { s1 with
          activeBuyOrders := [],
          stats := { s1.stats with totalBuyOrdersCanceled :=
            s1.stats.totalBuyOrdersCanceled + s1.activeBuyOrders.length } }
        (updateSellTPOrders cfg env s2 0).1
      else
        (updateSellTPOrders cfg env s1 0).1
  else s

/-- The stats effect of `cancelAllTPOrders()`. -/
def cancelAllTPGo : List TPOrder → Stats → Stats
  | [], st => st
  | o :: rest, st =>
    cancelAllTPGo rest { st with
      totalSellOrdersCanceled := st.totalSellOrdersCanceled + 1,
      pendingPositions := removeFirstByOrderId st.pendingPositions o.orderId }

/-- `cancelAllTPOrders()`. -/
def cancelAllTPOrders (s : BotState) : BotState :=
  { s with
    stats := cancelAllTPGo s.activeSellTPOrders s.stats,
    activeSellTPOrders := [] }

/-- The per-TP loop of `sellAllAtMarket`: cancel the TP, then market-sell
its quantity; only a successful market placement books the P/L and
drains the pendingPositions entry. -/
def sellAllGo (bestAsk : ℚ) (place : ℕ → Option ℕ) :
    List TPOrder → Stats → ℕ → Stats
  | [], st, _ => st
  | o :: rest, st, k =>
    let st1 := { st with totalSellOrdersCanceled := st.totalSellOrdersCanceled + 1 }
    let st2 := match place k with
      | some _ =>
        { st1 with
          realProfit := st1.realProfit + (bestAsk - o.buyPrice) * o.qty,
          totalSellOrdersFilled := st1.totalSellOrdersFilled + 1,
          pendingPositions := removeFirstByOrderId st1.pendingPositions o.orderId }
      | none => st1
    sellAllGo bestAsk place rest st2 (k + 1)

/-- `sellAllAtMarket()` (stop-time flatten): on an orderbook-fetch
failure it degrades to `cancelAllTPOrders`. -/
def sellAllAtMarket (ob : Option Orderbook) (place : ℕ → Option ℕ)
    (s : BotState) : BotState :=
  if s.activeSellTPOrders = [] then s
  else
    match ob with
    | none => cancelAllTPOrders s
    | some o =>
      { s with
        stats := sellAllGo o.bestAsk place s.activeSellTPOrders s.stats 0,
        activeSellTPOrders := [] }

/-- §3's invariant 5 / claim C8: the pendingPositions list shadows the
open TP set id for id (stated as equality of the id sequences, which
implies the one-to-one correspondence by id). -/
def TPConsistent (s : BotState) : Prop :=
  s.stats.pendingPositions.map (·.orderId) = s.activeSellTPOrders.map (·.orderId)

instance (s : BotState) : Decidable (TPConsistent s) := by
  unfold TPConsistent; infer_instance

/-! ### Concrete fixtures used by counterexamples and witnesses -/

/-- Order-status oracle value: order still open. -/
def notFilledS : OrderStatus := ⟨false, false, 0⟩

/-- Order-status oracle value: order fully filled (cumExecQty 1). -/
def filledS : OrderStatus := ⟨true, false, 1⟩

/-- tick 1, 2 buy layers, offset 2, step 1, TTL 60 s, reprice 5 ticks,
TP 1 tick, 2 TP slots, qty 1, no cooldown. -/
def cfgA : Config := ⟨1, 2, 2, 1, 60, 5, 1, 2, 1, 0, false⟩

/-- Like `cfgA` but offset 0 (used for the layer-collision trace). -/
def cfgB : Config := ⟨1, 2, 0, 1, 60, 5, 1, 2, 1, 0, false⟩

/-- Like `cfgA` but offset 1, reprice 100 and a single TP slot
(used for the waiting-transition trace). -/
def cfgC : Config := ⟨1, 2, 1, 1, 60, 100, 1, 1, 1, 0, false⟩

/-- Like `cfgA` but TP profit 2 ticks and a single buy layer. -/
def cfgD : Config := ⟨1, 1, 2, 1, 60, 5, 2, 2, 1, 0, false⟩

/-- First tick of the layer-collision trace: bid 99, both placements succeed. -/
def envB1 : Env :=
  { now := 0, status := fun _ => notFilledS,
    place := fun k => if k = 0 then some 1 else if k = 1 then some 2 else none,
    obMain := some ⟨99, 100⟩, obMS := none }

/-- Second tick of the layer-collision trace: bid 100, order 2 filled. -/
def envB2 : Env :=
  { now := 1000, status := fun n => if n = 2 then filledS else notFilledS,
    place := fun k => if k = 0 then some 3 else if k = 1 then some 4 else none,
    obMain := some ⟨100, 101⟩, obMS := none }

/-- Pre-state of the waiting-transition counterexample: one open BUY
(order 10 at 99, layer 0) and a full (1-slot) TP set (order 20). -/
def stateC : BotState :=
  { isRunning := true, isPaused := false,
    activeBuyOrders := [⟨10, 99, 1, 0, 0, 0⟩],
    activeSellTPOrders := [⟨20, 105, 1, 104, 0⟩],
    lastBuyFillTime := 0, isWaitingForMarketSell := false,
    pendingMarketSell := none, pendingNewTP := none,
    stats := { initStats with pendingPositions := [⟨20, 104, 1, 105⟩] } }

/-- Oracle for the waiting-transition counterexample: buy 10 fills, the
eviction market sell and two fresh BUY placements all succeed. -/
def envC : Env :=
  { now := 1000, status := fun n => if n = 10 then filledS else notFilledS,
    place := fun k => if k = 0 then some 30 else if k = 1 then some 40
      else if k = 2 then some 41 else none,
    obMain := some ⟨100, 101⟩, obMS := none }

/-- TP set of two orders sorted by timestamp with the maximum price
last (order 22 @ 107). -/
def stateW2 : BotState :=
  { isRunning := true, isPaused := false,
    activeBuyOrders := [],
    activeSellTPOrders := [⟨21, 105, 1, 104, 10⟩, ⟨22, 107, 2, 106, 20⟩],
    lastBuyFillTime := 0, isWaitingForMarketSell := false,
    pendingMarketSell := none, pendingNewTP := none,
    stats := { initStats with
      pendingPositions := [⟨21, 104, 1, 105⟩, ⟨22, 106, 2, 107⟩] } }

/-- Oracle for the C2 witness: the eviction market sell gets id 30. -/
def envW2 : Env :=
  { now := 3000, status := fun _ => notFilledS,
    place := fun k => if k = 0 then some 30 else none,
    obMain := none, obMS := none }

/-- A waiting state with one leftover BUY: order 11 on the book while
the market sell 30 is outstanding. -/
def stateW3 : BotState :=
  { isRunning := true, isPaused := false,
    activeBuyOrders := [⟨11, 98, 1, 0, 0, 1⟩],
    activeSellTPOrders := [],
    lastBuyFillTime := 0, isWaitingForMarketSell := true,
    pendingMarketSell := some ⟨30, 1, 104, 105, 0, false, 0⟩,
    pendingNewTP := some ⟨99, 1⟩,
    stats := initStats }

/-- Oracle for the C3 witness: the market sell is still open (1 s in),
nothing fills, fetch succeeds. -/
def envW3 : Env :=
  { now := 1000, status := fun _ => notFilledS,
    place := fun _ => none,
    obMain := some ⟨100, 101⟩, obMS := none }

/-- A waiting state whose market sell (order 60, evicted buy at 100,
qty 1) is outstanding and whose pendingNewTP is the fill (99, 1). -/
def stateW4 : BotState :=
  { isRunning := true, isPaused := false,
    activeBuyOrders := [], activeSellTPOrders := [],
    lastBuyFillTime := 0, isWaitingForMarketSell := true,
    pendingMarketSell := some ⟨60, 1, 100, 105, 0, false, 0⟩,
    pendingNewTP := some ⟨99, 1⟩,
    stats := initStats }

/-- Oracle for the C4 witness: order 60 filled, fresh book bid 102,
the replacement TP placement succeeds with id 71. -/
def envW4 : Env :=
  { now := 5000, status := fun n => if n = 60 then filledS else notFilledS,
    place := fun k => if k = 0 then some 71 else none,
    obMain := none, obMS := some ⟨102, 103⟩ }

/-- Oracle for the C10 witness: like `envW4` but the orderbook fetch
inside the wait controller fails. -/
def envW10 : Env :=
  { now := 5000, status := fun n => if n = 60 then filledS else notFilledS,
    place := fun k => if k = 0 then some 71 else none,
    obMain := none, obMS := none }

/-- A waiting state whose pending sell is already a limit fallback
resting at 100 (order 50), placed at time 0. -/
def stateC5 : BotState :=
  { isRunning := true, isPaused := false,
    activeBuyOrders := [], activeSellTPOrders := [],
    lastBuyFillTime := 0, isWaitingForMarketSell := true,
    pendingMarketSell := some ⟨50, 1, 100, 105, 0, true, 100⟩,
    pendingNewTP := none,
    stats := initStats }

/-- Oracle for C5: 31 s elapsed, order 50 still open, bid 101 (only one
tick away from the resting limit), replacement limit gets id 77. -/
def envC5 : Env :=
  { now := 31000, status := fun _ => notFilledS,
    place := fun k => if k = 0 then some 77 else none,
    obMain := none, obMS := some ⟨101, 102⟩ }

/-- A full (1-slot) TP set: order 9 is the only TP. -/
def state6 : BotState :=
  { isRunning := true, isPaused := false,
    activeBuyOrders := [],
    activeSellTPOrders := [⟨9, 105, 1, 104, 0⟩],
    lastBuyFillTime := 0, isWaitingForMarketSell := false,
    pendingMarketSell := none, pendingNewTP := none,
    stats := { initStats with pendingPositions := [⟨9, 104, 1, 105⟩] } }

/-- Oracle for C6: every order placement fails. -/
def env6 : Env :=
  { now := 100, status := fun _ => notFilledS,
    place := fun _ => none, obMain := none, obMS := none }

/-- One open TP (order 5) shadowed by one pendingPositions entry. -/
def state8 : BotState :=
  { isRunning := true, isPaused := false,
    activeBuyOrders := [],
    activeSellTPOrders := [⟨5, 101, 1, 100, 0⟩],
    lastBuyFillTime := 0, isWaitingForMarketSell := false,
    pendingMarketSell := none, pendingNewTP := none,
    stats := { initStats with pendingPositions := [⟨5, 100, 1, 101⟩] } }

/-- Oracle whose order placements always succeed (id 123). -/
def envW8 : Env :=
  { now := 0, status := fun _ => notFilledS,
    place := fun _ => some 123, obMain := none, obMS := none }

/-- One open TP (order 7) that the exchange reports as Filled. -/
def state9 : BotState :=
  { isRunning := true, isPaused := false,
    activeBuyOrders := [],
    activeSellTPOrders := [⟨7, 101, 1, 100, 0⟩],
    lastBuyFillTime := 0, isWaitingForMarketSell := false,
    pendingMarketSell := none, pendingNewTP := none,
    stats := { initStats with pendingPositions := [⟨7, 100, 1, 101⟩] } }

/-- Oracle for the C9 counterexample: TP 7 is Filled but the main
orderbook fetch fails. -/
def env9 : Env :=
  { now := 500, status := fun n => if n = 7 then filledS else notFilledS,
    place := fun _ => none, obMain := none, obMS := none }

/-- Oracle for the C9 witness: TP 7 is Filled and the fetch succeeds. -/
def envW9 : Env :=
  { now := 500, status := fun n => if n = 7 then filledS else notFilledS,
    place := fun _ => none, obMain := some ⟨100, 101⟩, obMS := none }

/-- A waiting state holding one Filled-reported TP (order 8) and a
pending TP for the fill (99, 1): reconciliation removes TP 8, frees a
slot and immediately materialises the pending TP. -/
def stateW9b : BotState :=
  { isRunning := true, isPaused := false,
    activeBuyOrders := [],
    activeSellTPOrders := [⟨8, 101, 1, 100, 0⟩],
    lastBuyFillTime := 0, isWaitingForMarketSell := true,
    pendingMarketSell := some ⟨60, 1, 100, 105, 0, false, 0⟩,
    pendingNewTP := some ⟨99, 1⟩,
    stats := { initStats with pendingPositions := [⟨8, 100, 1, 101⟩] } }

/-- Oracle for the C9 witness: TPs 8 and 77 read Filled, the market sell
60 stays open, the pending-TP placement succeeds with id 77. -/
def envW9b : Env :=
  { now := 3000,
    status := fun n => if n = 8 then filledS else if n = 77 then filledS else notFilledS,
    place := fun k => if k = 0 then some 77 else none,
    obMain := some ⟨100, 101⟩, obMS := none }

/-! ### Basic lemmas on the tick arithmetic -/

/-- `Rat.floor` is the `⌊·⌋` of the `FloorRing ℚ` instance. -/
lemma ratFloor_eq_intFloor (q : ℚ) : (q.floor : ℤ) = ⌊q⌋ := by
  rw [Rat.floor_def, Rat.floor_def']

/-- `roundToTick` in `⌊·⌋` form. -/
lemma roundToTick_eq (cfg : Config) (p : ℚ) :
    roundToTick cfg p = (⌊p / cfg.tickSize + 1/2⌋ : ℚ) * cfg.tickSize := by
  rw [roundToTick, ratFloor_eq_intFloor]

/-- Rounding moves a price up by less than half a tick. -/
lemma roundToTick_le (cfg : Config) (p : ℚ) (ht : 0 < cfg.tickSize) :
    roundToTick cfg p ≤ p + cfg.tickSize / 2 := by
  rw [roundToTick_eq]
  have h1 : (⌊p / cfg.tickSize + 1/2⌋ : ℚ) ≤ p / cfg.tickSize + 1/2 :=
    Int.floor_le _
  have h2 := mul_le_mul_of_nonneg_right h1 ht.le
  calc (⌊p / cfg.tickSize + 1/2⌋ : ℚ) * cfg.tickSize
      ≤ (p / cfg.tickSize + 1/2) * cfg.tickSize := h2
    _ = p + cfg.tickSize / 2 := by field_simp; ring

/-- The price `createBuyOrders` posts for a layer matches the spec's
`layerPrice` formula word for word. -/
lemma buyPriceForLayer_eq_spec (cfg : Config) (bestBid : ℚ) (layer : ℕ) :
    buyPriceForLayer cfg bestBid layer = layerPriceSpec cfg bestBid layer := by
  unfold buyPriceForLayer layerPriceSpec
  congr 1
  push_cast
  ring

/-- `buyPriceForLayer` as a shifted rounding of the bid. -/
lemma buyPriceForLayer_shift (cfg : Config) (bestBid : ℚ) (layer : ℕ)
    (ht : cfg.tickSize ≠ 0) :
    buyPriceForLayer cfg bestBid layer =
      ((⌊bestBid / cfg.tickSize + 1/2⌋ -
        ((cfg.offsetTicks + layer * cfg.layerStepTicks : ℕ) : ℤ) : ℤ) : ℚ) * cfg.tickSize := by
  have hq : ((cfg.offsetTicks + layer * cfg.layerStepTicks : ℕ) : ℚ)
      = (((cfg.offsetTicks + layer * cfg.layerStepTicks : ℕ) : ℤ) : ℚ) := by push_cast; ring
  unfold buyPriceForLayer
  rw [roundToTick_eq]
  rw [show (bestBid -
        ((cfg.offsetTicks + layer * cfg.layerStepTicks : ℕ) : ℚ) * cfg.tickSize) / cfg.tickSize
        + 1/2
      = bestBid / cfg.tickSize + 1/2 -
        (((cfg.offsetTicks + layer * cfg.layerStepTicks : ℕ) : ℤ) : ℚ) by
    rw [sub_div, mul_div_assoc, div_self ht, mul_one, ← hq]; ring]
  rw [Int.floor_sub_int]

/-- Distinct layers get prices at least one tick apart (hence never
within the half-tick conflict window of each other). -/
lemma buyPriceForLayer_gap (cfg : Config) (bestBid : ℚ) (a b : ℕ)
    (hab : a ≠ b) (ht : 0 < cfg.tickSize) (hstep : 1 ≤ cfg.layerStepTicks) :
    cfg.tickSize ≤ |buyPriceForLayer cfg bestBid a - buyPriceForLayer cfg bestBid b| := by
  rw [buyPriceForLayer_shift cfg bestBid a ht.ne',
    buyPriceForLayer_shift cfg bestBid b ht.ne']
  rw [← sub_mul, abs_mul, abs_of_pos ht]
  have hz : ((cfg.offsetTicks + b * cfg.layerStepTicks : ℕ) : ℤ) ≠
      ((cfg.offsetTicks + a * cfg.layerStepTicks : ℕ) : ℤ) := by
    intro h
    apply hab
    have h' : cfg.offsetTicks + b * cfg.layerStepTicks =
        cfg.offsetTicks + a * cfg.layerStepTicks := by exact_mod_cast h
    have h'' : b * cfg.layerStepTicks = a * cfg.layerStepTicks :=
      Nat.add_left_cancel h'
    exact (Nat.eq_of_mul_eq_mul_right (lt_of_lt_of_le Nat.zero_lt_one hstep) h'').symm
  have key : (1 : ℚ) ≤
      |(((⌊bestBid / cfg.tickSize + 1/2⌋ -
          ((cfg.offsetTicks + a * cfg.layerStepTicks : ℕ) : ℤ)) : ℤ) : ℚ) -
        (((⌊bestBid / cfg.tickSize + 1/2⌋ -
          ((cfg.offsetTicks + b * cfg.layerStepTicks : ℕ) : ℤ)) : ℤ) : ℚ)| := by
    rw [show ((((⌊bestBid / cfg.tickSize + 1/2⌋ -
          ((cfg.offsetTicks + a * cfg.layerStepTicks : ℕ) : ℤ)) : ℤ) : ℚ) -
        (((⌊bestBid / cfg.tickSize + 1/2⌋ -
          ((cfg.offsetTicks + b * cfg.layerStepTicks : ℕ) : ℤ)) : ℤ) : ℚ)) =
        ((((cfg.offsetTicks + b * cfg.layerStepTicks : ℕ) : ℤ) -
          ((cfg.offsetTicks + a * cfg.layerStepTicks : ℕ) : ℤ) : ℤ) : ℚ) by push_cast; ring]
    rw [← Int.cast_abs]
    exact_mod_cast Int.one_le_abs (sub_ne_zero.mpr hz)
  push_cast at key ⊢
  nlinarith [key, ht]



/-! ### Claim C1 -/

/-- Claim C1 counterexample: `calculateLayerPrice` does not agree with
`roundToTick(bestBid - (offsetTicks + layer*layerStepTicks)*tickSize)`.
With tick 1, offsetTicks 2, layerStepTicks 1, bestBid 100, layer 0 the
source function returns `bestBid + offsetTicks*tickSize = 102` (it adds
the offset and never rounds) while the spec formula gives 98. -/
theorem claim_C1_counterexample :
    calculateLayerPrice cfgA 100 0 = 102 ∧ layerPriceSpec cfgA 100 0 = 98 ∧
    calculateLayerPrice cfgA 100 0 ≠ layerPriceSpec cfgA 100 0 := by
  refine ⟨?_, ?_, ?_⟩ <;>
    norm_num [calculateLayerPrice, layerPriceSpec, roundToTick_eq, cfgA]

/-- Claim C1 (amended): the BUY price `createBuyOrders` actually posts
for a layer equals `roundToTick(bestBid - (offsetTicks +
layer*layerStepTicks)*tickSize)` and lies strictly below `bestBid`
whenever `offsetTicks > 0` (and the tick is positive); the helper
`calculateLayerPrice` does not compute this value (see the
counterexample) and is only used by the manual test path. -/
theorem claim_C1_amended (cfg : Config) (bestBid : ℚ) (layer : ℕ) :
    buyPriceForLayer cfg bestBid layer = layerPriceSpec cfg bestBid layer ∧
    (0 < cfg.tickSize → 0 < cfg.offsetTicks →
      buyPriceForLayer cfg bestBid layer < bestBid) := by
  refine ⟨buyPriceForLayer_eq_spec cfg bestBid layer, fun ht hoff => ?_⟩
  have key := roundToTick_le cfg
    (bestBid - ((cfg.offsetTicks + layer * cfg.layerStepTicks : ℕ) : ℚ) * cfg.tickSize) ht
  have hc : (1 : ℚ) ≤ ((cfg.offsetTicks + layer * cfg.layerStepTicks : ℕ) : ℚ) := by
    have : 1 ≤ cfg.offsetTicks + layer * cfg.layerStepTicks :=
      le_trans hoff (Nat.le_add_right _ _)
    exact_mod_cast this
  unfold buyPriceForLayer
  nlinarith [key, hc, ht]

/-- Witness for C1 (amended) at tick 1, offset 2, bid 100, layer 0. -/
theorem claim_C1_witness :
    buyPriceForLayer cfgA 100 0 = layerPriceSpec cfgA 100 0 ∧
    buyPriceForLayer cfgA 100 0 < 100 :=
  ⟨(claim_C1_amended cfgA 100 0).1,
   (claim_C1_amended cfgA 100 0).2 (by norm_num [cfgA]) (by norm_num [cfgA])⟩


/-! ### The overflow-eviction scan (claim C2) -/

/-- Full behaviour of the overflow scan: either the carried best wins
(everything in `l` is `≤` the carried best price) or the result points
at the first maximum of `l`: strictly above the carried price, strictly
above everything before it, and `≥` everything after it. -/
lemma highestScan_spec (l : List TPOrder) : ∀ (i bi : ℕ) (bp : ℚ),
    (highestScan l i (bi, bp) = (bi, bp) ∧ ∀ o ∈ l, o.price ≤ bp)
    ∨ ∃ j, ∃ h : j < l.length,
        highestScan l i (bi, bp) = (i + j, (l.get ⟨j, h⟩).price)
        ∧ bp < (l.get ⟨j, h⟩).price
        ∧ (∀ j' (h' : j' < l.length), j' < j → (l.get ⟨j', h'⟩).price < (l.get ⟨j, h⟩).price)
        ∧ (∀ j' (h' : j' < l.length), j < j' → (l.get ⟨j', h'⟩).price ≤ (l.get ⟨j, h⟩).price) := by
  induction l with
  | nil =>
    intro i bi bp
    left
    exact ⟨rfl, by simp⟩
  | cons o rest ih =>
    intro i bi bp
    by_cases hcmp : bp < o.price
    · rcases ih (i + 1) i o.price with ⟨heq, hall⟩ | ⟨j, hj, heq, hgt, hbefore, hafter⟩
      · right
        refine ⟨0, by simp, ?_, by simpa using hcmp, ?_, ?_⟩
        · simpa [highestScan, hcmp] using heq
        · intro j' h' hj'
          omega
        · intro j' h' hj'
          match j', h' with
          | j'' + 1, h' =>
            have hj'' : j'' < rest.length := by simpa using h'
            have := hall _ (rest.get_mem j'' hj'')
            simpa using this
      · right
        refine ⟨j + 1, by simpa using hj, ?_, ?_, ?_, ?_⟩
        · rw [show i + (j + 1) = (i + 1) + j by omega]
          simpa [highestScan, hcmp] using heq
        · simpa using lt_trans hcmp hgt
        · intro j' h' hj'
          match j', h' with
          | 0, h' => simpa using hgt
          | j'' + 1, h' =>
            have := hbefore j'' (by simpa using h') (by omega)
            simpa using this
        · intro j' h' hj'
          match j', h' with
          | j'' + 1, h' =>
            have := hafter j'' (by simpa using h') (by omega)
            simpa using this
    · rcases ih (i + 1) bi bp with ⟨heq, hall⟩ | ⟨j, hj, heq, hgt, hbefore, hafter⟩
      · left
        refine ⟨by simpa [highestScan, hcmp] using heq, ?_⟩
        intro o' ho'
        rcases List.mem_cons.mp ho' with h | h
        · subst h
          exact le_of_not_lt hcmp
        · exact hall o' h
      · right
        refine ⟨j + 1, by simpa using hj, ?_, ?_, ?_, ?_⟩
        · rw [show i + (j + 1) = (i + 1) + j by omega]
          simpa [highestScan, hcmp] using heq
        · simpa using hgt
        · intro j' h' hj'
          match j', h' with
          | 0, h' =>
            have hle : o.price ≤ bp := le_of_not_lt hcmp
            have := lt_of_le_of_lt hle hgt
            simpa using this
          | j'' + 1, h' =>
            have := hbefore j'' (by simpa using h') (by omega)
            simpa using this
        · intro j' h' hj'
          match j', h' with
          | j'' + 1, h' =>
            have := hafter j'' (by simpa using h') (by omega)
            simpa using this

/-- The evicted index is in range, carries the maximal TP price, and
every strictly earlier index carries a strictly smaller price. -/
lemma highestTPIdx_spec (l : List TPOrder) (hne : l ≠ []) :
    ∃ h : highestTPIdx l < l.length,
      (∀ o ∈ l, o.price ≤ (l.get ⟨highestTPIdx l, h⟩).price) ∧
      (∀ j (hj : j < l.length), j < highestTPIdx l →
        (l.get ⟨j, hj⟩).price < (l.get ⟨highestTPIdx l, h⟩).price) := by
  match l with
  | [] => exact absurd rfl hne
  | o :: rest =>
    rcases highestScan_spec rest 1 0 o.price with ⟨heq, hall⟩ | ⟨j, hj, heq, hgt, hbefore, hafter⟩
    · have hidx : highestTPIdx (o :: rest) = 0 := by simp [highestTPIdx, heq]
      rw [hidx]
      refine ⟨by simp, ?_, ?_⟩
      · intro o' ho'
        rcases List.mem_cons.mp ho' with h | h
        · subst h; simp
        · simpa using hall o' h
      · intro j' hj' hlt
        omega
    · have hidx : highestTPIdx (o :: rest) = j + 1 := by
        simp [highestTPIdx, heq]
        omega
      rw [hidx]
      have hlt : j + 1 < (o :: rest).length := by simpa using hj
      refine ⟨hlt, ?_, ?_⟩
      · intro o' ho'
        rcases List.mem_cons.mp ho' with h | h
        · subst h
          simpa using le_of_lt hgt
        · obtain ⟨n, hn⟩ := List.mem_iff_get.mp h
          rcases lt_trichotomy n.1 j with hc | hc | hc
          · have := hbefore n.1 n.2 hc
            rw [hn] at this
            simpa using le_of_lt this
          · have : rest.get n = rest.get ⟨j, hj⟩ := by
              congr 1
              exact Fin.ext hc
            rw [hn] at this
            rw [this]
            simp
          · have := hafter n.1 n.2 hc
            rw [hn] at this
            simpa using this
      · intro j' hj' hlt'
        match j', hj' with
        | 0, hj' => simpa using hgt
        | j'' + 1, hj' =>
          have := hbefore j'' (by simpa using hj') (by omega)
          simpa using this

/-- With the TP set sorted by (non-decreasing) creation timestamp — the
only way the engine ever builds it, since TPs are appended at creation
time — the evicted TP is the oldest among those sharing the maximal
price. -/
lemma highestTPIdx_oldest (l : List TPOrder)
    (hsorted : List.Pairwise (fun a b => a.timestamp ≤ b.timestamp) l)
    (h : highestTPIdx l < l.length)
    (hmax : ∀ j (hj : j < l.length), j < highestTPIdx l →
      (l.get ⟨j, hj⟩).price < (l.get ⟨highestTPIdx l, h⟩).price) :
    ∀ o ∈ l, o.price = (l.get ⟨highestTPIdx l, h⟩).price →
      (l.get ⟨highestTPIdx l, h⟩).timestamp ≤ o.timestamp := by
  intro o ho hprice
  obtain ⟨n, hn⟩ := List.mem_iff_get.mp ho
  rcases lt_trichotomy n.1 (highestTPIdx l) with hc | hc | hc
  · have := hmax n.1 n.2 hc
    rw [hn, hprice] at this
    exact absurd this (lt_irrefl _)
  · have : l.get n = l.get ⟨highestTPIdx l, h⟩ := by
      congr 1
      exact Fin.ext hc
    rw [hn] at this
    rw [this]
  · have := List.pairwise_iff_get.mp hsorted ⟨highestTPIdx l, h⟩ n hc
    rw [hn] at this
    exact this


/-! ### Claim C2 -/

/-- Claim C2: when a BUY fill reaches the TP manager with the TP set at
capacity, the engine evicts exactly the first maximal-price TP (the
oldest among ties, the TP set being timestamp-sorted), removes it from
the TP set and pendingPositions, books one sell-cancel, records the
market sell as `pendingMarketSell`, enters the wait sub-state with
`pendingNewTP` holding the triggering fill, and creates no TP in this
invocation. -/
theorem claim_C2_theorem (cfg : Config) (env : Env) (s : BotState)
    (buyPrice qty : ℚ) (k mid : ℕ)
    (hlen : s.activeSellTPOrders.length = cfg.maxSellTPOrders)
    (hpos : 0 < cfg.maxSellTPOrders)
    (hsorted : List.Pairwise (fun a b => a.timestamp ≤ b.timestamp) s.activeSellTPOrders)
    (hplace : env.place k = some mid) :
    highestTPIdx s.activeSellTPOrders < s.activeSellTPOrders.length ∧
    (∀ o ∈ s.activeSellTPOrders, o.price ≤
      (s.activeSellTPOrders.getD (highestTPIdx s.activeSellTPOrders) defaultTPOrder).price) ∧
    (∀ o ∈ s.activeSellTPOrders, o.price =
        (s.activeSellTPOrders.getD (highestTPIdx s.activeSellTPOrders) defaultTPOrder).price →
      (s.activeSellTPOrders.getD (highestTPIdx s.activeSellTPOrders) defaultTPOrder).timestamp
        ≤ o.timestamp) ∧
    (createSellTPOrder cfg env buyPrice qty s k).1.activeSellTPOrders
      = s.activeSellTPOrders.eraseIdx (highestTPIdx s.activeSellTPOrders) ∧
    (createSellTPOrder cfg env buyPrice qty s k).1.stats.pendingPositions
      = removeFirstByOrderId s.stats.pendingPositions
          (s.activeSellTPOrders.getD (highestTPIdx s.activeSellTPOrders) defaultTPOrder).orderId ∧
    (createSellTPOrder cfg env buyPrice qty s k).1.stats.totalSellOrdersCanceled
      = s.stats.totalSellOrdersCanceled + 1 ∧
    (createSellTPOrder cfg env buyPrice qty s k).1.isWaitingForMarketSell = true ∧
    (createSellTPOrder cfg env buyPrice qty s k).1.pendingNewTP = some ⟨buyPrice, qty⟩ ∧
    (createSellTPOrder cfg env buyPrice qty s k).1.pendingMarketSell
      = some ⟨mid,
          (s.activeSellTPOrders.getD (highestTPIdx s.activeSellTPOrders) defaultTPOrder).qty,
          (s.activeSellTPOrders.getD (highestTPIdx s.activeSellTPOrders) defaultTPOrder).buyPrice,
          (s.activeSellTPOrders.getD (highestTPIdx s.activeSellTPOrders) defaultTPOrder).price,
          env.now, false, 0⟩ ∧
    (createSellTPOrder cfg env buyPrice qty s k).1.stats.totalSellOrdersCreated
      = s.stats.totalSellOrdersCreated := by
  have hne : s.activeSellTPOrders ≠ [] := by
    intro h
    rw [h] at hlen
    simp at hlen
    omega
  obtain ⟨hidx, hmax, hbefore⟩ := highestTPIdx_spec s.activeSellTPOrders hne
  have hgetD : s.activeSellTPOrders.getD (highestTPIdx s.activeSellTPOrders) defaultTPOrder
      = s.activeSellTPOrders.get ⟨highestTPIdx s.activeSellTPOrders, hidx⟩ :=
    List.getD_eq_get _ _ hidx
  have holdest := highestTPIdx_oldest s.activeSellTPOrders hsorted hidx hbefore
  have hcond : cfg.maxSellTPOrders ≤ s.activeSellTPOrders.length := le_of_eq hlen.symm
  refine ⟨hidx, ?_, ?_, ?_⟩
  · intro o ho
    rw [hgetD]
    exact hmax o ho
  · intro o ho hp
    rw [hgetD] at hp ⊢
    exact holdest o ho hp
  · -- the state changes: evaluate the overflow branch
    rcases hl : s.activeSellTPOrders with _ | ⟨t, ts⟩
    · exact absurd hl hne
    · rw [hl] at hcond
      simp only [createSellTPOrder, hl, hcond, if_true, hplace, hgetD.symm, hl]
      simp [hl]

/-- Witness for C2 at a 2-slot cap with TPs at 105 and 107: the TP at
107 (order 22, qty 2, buy 106) is evicted and recorded as the pending
market sell, and the fill (103, 1) becomes the pending TP. -/
theorem claim_C2_witness :
    (createSellTPOrder cfgA envW2 103 1 stateW2 0).1.pendingMarketSell
        = some ⟨30, 2, 106, 107, 3000, false, 0⟩ ∧
    (createSellTPOrder cfgA envW2 103 1 stateW2 0).1.isWaitingForMarketSell = true ∧
    (createSellTPOrder cfgA envW2 103 1 stateW2 0).1.pendingNewTP = some ⟨103, 1⟩ ∧
    (createSellTPOrder cfgA envW2 103 1 stateW2 0).1.stats.totalSellOrdersCreated = 0 := by
  have h := claim_C2_theorem cfgA envW2 stateW2 103 1 0 30
    (by norm_num [stateW2, cfgA])
    (by norm_num [cfgA])
    (by norm_num [stateW2, List.pairwise_cons])
    (by norm_num [envW2])
  have hev : stateW2.activeSellTPOrders.getD
      (highestTPIdx stateW2.activeSellTPOrders) defaultTPOrder = ⟨22, 107, 2, 106, 20⟩ := by
    norm_num [stateW2, highestTPIdx, highestScan]
  refine ⟨?_, h.2.2.2.2.2.2.1, h.2.2.2.2.2.2.2.1, ?_⟩
  · have := h.2.2.2.2.2.2.2.2.1
    rw [hev] at this
    simpa [envW2] using this
  · have := h.2.2.2.2.2.2.2.2.2
    simpa [stateW2, initStats] using this


/-! ### Preservation lemmas for the tick components -/

/-- The wait controller never touches the BUY book, the pause/run flags
or the BUY counters. -/
lemma checkMarketSellStatus_preserves (cfg : Config) (env : Env) (s : BotState) (k : ℕ) :
    (checkMarketSellStatus cfg env s k).1.activeBuyOrders = s.activeBuyOrders ∧
    (checkMarketSellStatus cfg env s k).1.isPaused = s.isPaused ∧
    (checkMarketSellStatus cfg env s k).1.isRunning = s.isRunning ∧
    (checkMarketSellStatus cfg env s k).1.stats.totalBuyOrdersCreated
      = s.stats.totalBuyOrdersCreated ∧
    (checkMarketSellStatus cfg env s k).1.stats.totalBuyOrdersCanceled
      = s.stats.totalBuyOrdersCanceled := by
  unfold checkMarketSellStatus pushTP
  repeat' split
  all_goals (try (first | rfl | simp_all))
  all_goals (repeat' split)
  all_goals (try (first | rfl | simp_all))
  all_goals (repeat' split)
  all_goals (first | rfl | simp_all)

/-- The TP-reconciliation loop never touches the BUY book, the flags or
the BUY counters. -/
lemma updateTPGo_preserves (env : Env) (l : List TPOrder) : ∀ s : BotState,
    (updateTPGo env l s).2.2.activeBuyOrders = s.activeBuyOrders ∧
    (updateTPGo env l s).2.2.isPaused = s.isPaused ∧
    (updateTPGo env l s).2.2.isRunning = s.isRunning ∧
    (updateTPGo env l s).2.2.isWaitingForMarketSell = s.isWaitingForMarketSell ∧
    (updateTPGo env l s).2.2.pendingNewTP = s.pendingNewTP ∧
    (updateTPGo env l s).2.2.stats.totalBuyOrdersCreated = s.stats.totalBuyOrdersCreated ∧
    (updateTPGo env l s).2.2.stats.totalBuyOrdersCanceled = s.stats.totalBuyOrdersCanceled := by
  induction l with
  | nil => intro s; simp [updateTPGo]
  | cons o rest ih =>
    intro s
    unfold updateTPGo
    split <;> simpa using ih _

/-- `updateSellTPOrders` never touches the BUY book or the BUY counters. -/
lemma updateSellTPOrders_preserves (cfg : Config) (env : Env) (s : BotState) (k : ℕ) :
    (updateSellTPOrders cfg env s k).1.activeBuyOrders = s.activeBuyOrders ∧
    (updateSellTPOrders cfg env s k).1.stats.totalBuyOrdersCreated
      = s.stats.totalBuyOrdersCreated ∧
    (updateSellTPOrders cfg env s k).1.stats.totalBuyOrdersCanceled
      = s.stats.totalBuyOrdersCanceled := by
  obtain ⟨h1, _, _, _, _, h6, h7⟩ := updateTPGo_preserves env s.activeSellTPOrders s
  unfold updateSellTPOrders pushTP
  repeat' split
  all_goals (try (first | rfl | simp_all))
  all_goals (repeat' split)
  all_goals (try (first | rfl | simp_all))
  all_goals (repeat' split)
  all_goals (first | rfl | simp_all)

/-! ### Claim C3 -/

/-- Claim C3 counterexample: in the very tick during which
`waitingForMarketSell` becomes set (here: buy 10 fills, its TP overflows
the 1-slot cap, TP 20 is evicted and market-sold), `createBuyOrders`
still runs — the branch was chosen before the flag flipped — and posts
two fresh BUY orders, so the open-BUY set is *not* empty at the end of
that tick and new BUYs *were* placed while the flag was set. -/
theorem claim_C3_counterexample :
    stateC.isWaitingForMarketSell = false ∧
    (tick cfgC envC stateC).isWaitingForMarketSell = true ∧
    (tick cfgC envC stateC).stats.totalBuyOrdersCreated
      = stateC.stats.totalBuyOrdersCreated + 2 ∧
    (tick cfgC envC stateC).activeBuyOrders.length = 2 := by
  refine ⟨by norm_num [stateC], ?_, ?_, ?_⟩ <;>
    norm_num [tick, tickWaitStep, checkMarketSellStatus, updateBuyOrders, updateBuyOrdersGo,
      createBuyOrders, createBuyLoop, conflictAdjust, updateSellTPOrders, updateTPGo, createSellTPOrder, pushTP,
      buyPriceForLayer, roundToTick_eq, tpPriceOf, highestTPIdx, highestScan,
      removeFirstByOrderId, initStats, cfgC, envC, stateC, defaultTPOrder,
      List.range_succ, notFilledS, filledS]

/-- Claim C3 (amended): for every tick that is still in the
`waitingForMarketSell` sub-state *after* the top-of-tick wait-controller
step, and whose orderbook fetch succeeds, no BUY is placed and all
remaining open BUYs are canceled, so the open-BUY set is empty at the
end of the tick; the guarantee starts with the first tick that observes
the flag at its top, not with the tick during which the flag becomes
set (see the counterexample). -/
theorem claim_C3_amended (cfg : Config) (env : Env) (s : BotState) (ob : Orderbook)
    (hrun : s.isRunning = true)
    (hw : (tickWaitStep cfg env s).isWaitingForMarketSell = true)
    (hob : env.obMain = some ob) :
    (tick cfg env s).activeBuyOrders = [] ∧
    (tick cfg env s).stats.totalBuyOrdersCreated = s.stats.totalBuyOrdersCreated := by
  have hpre : (tickWaitStep cfg env s).stats.totalBuyOrdersCreated
      = s.stats.totalBuyOrdersCreated := by
    unfold tickWaitStep
    split
    · exact (checkMarketSellStatus_preserves cfg env s 0).2.2.2.1
    · rfl
  unfold tick
  rw [hrun, hob]
  simp only [if_true, hw, not_true_eq_false, and_false, Bool.false_eq_true, if_false]
  constructor
  · rw [(updateSellTPOrders_preserves cfg env _ 0).1]
  · rw [(updateSellTPOrders_preserves cfg env _ 0).2.1]
    simpa using hpre

/-- Witness for C3 (amended): a tick that starts waiting (market sell 30
still open) with one leftover BUY ends with an empty BUY book and no new
BUY placements. -/
theorem claim_C3_witness :
    (tick cfgC envW3 stateW3).activeBuyOrders = [] ∧
    (tick cfgC envW3 stateW3).stats.totalBuyOrdersCreated
      = stateW3.stats.totalBuyOrdersCreated :=
  claim_C3_amended cfgC envW3 stateW3 ⟨100, 101⟩
    (by norm_num [stateW3])
    (by norm_num [tickWaitStep, checkMarketSellStatus, stateW3, envW3, notFilledS])
    (by norm_num [envW3])


/-! ### Claim C4 -/

/-- Claim C4: whenever the pending market sell reports Filled and the
fresh orderbook fetch succeeds, the engine books exactly
`(bestBid - pendingMarketSell.buyPrice) * qty` of realised P/L, bumps
`sellFilled` by one, and clears the wait sub-state, `pendingMarketSell`
and `pendingNewTP` — unconditionally; when `pendingNewTP` is still set
(it may already have been materialised while waiting) and its placement
succeeds, it is placed as a normal TP at the normal TP price, and when
it is no longer set the TP set and pendingPositions are untouched. -/
theorem claim_C4_theorem (cfg : Config) (env : Env) (s : BotState) (k : ℕ)
    (pms : PendingMarketSell) (ob : Orderbook)
    (hpms : s.pendingMarketSell = some pms)
    (hfilled : (env.status pms.orderId).filled = true)
    (hob : env.obMS = some ob) :
    (checkMarketSellStatus cfg env s k).1.stats.realProfit
      = s.stats.realProfit + (ob.bestBid - pms.buyPrice) * pms.qty ∧
    (checkMarketSellStatus cfg env s k).1.stats.totalSellOrdersFilled
      = s.stats.totalSellOrdersFilled + 1 ∧
    (checkMarketSellStatus cfg env s k).1.isWaitingForMarketSell = false ∧
    (checkMarketSellStatus cfg env s k).1.pendingMarketSell = none ∧
    (checkMarketSellStatus cfg env s k).1.pendingNewTP = none ∧
    (∀ p oid, s.pendingNewTP = some p → env.place k = some oid →
      (checkMarketSellStatus cfg env s k).1.activeSellTPOrders
        = s.activeSellTPOrders
          ++ [⟨oid, tpPriceOf cfg p.buyPrice, p.qty, p.buyPrice, env.now⟩] ∧
      (checkMarketSellStatus cfg env s k).1.stats.pendingPositions
        = s.stats.pendingPositions
          ++ [⟨oid, p.buyPrice, p.qty, tpPriceOf cfg p.buyPrice⟩]) ∧
    (s.pendingNewTP = none →
      (checkMarketSellStatus cfg env s k).1.activeSellTPOrders
        = s.activeSellTPOrders ∧
      (checkMarketSellStatus cfg env s k).1.stats.pendingPositions
        = s.stats.pendingPositions) := by
  rcases hp : s.pendingNewTP with _ | p
  · simp only [checkMarketSellStatus, pushTP, hpms, hfilled, hob, hp]
    simp
  · rcases hpl : env.place k with _ | oid
    · simp only [checkMarketSellStatus, pushTP, hpms, hfilled, hob, hp, hpl]
      simp
    · simp only [checkMarketSellStatus, pushTP, hpms, hfilled, hob, hp, hpl]
      simp

/-- Witness for C4: market sell 60 (evicted buy at 100, qty 1) fills,
bid 102 → P/L +2; the pending TP (buy 99) is placed at 100 as order 71;
the wait state fully clears. -/
theorem claim_C4_witness :
    (checkMarketSellStatus cfgA envW4 stateW4 0).1.stats.realProfit = 2 ∧
    (checkMarketSellStatus cfgA envW4 stateW4 0).1.stats.totalSellOrdersFilled = 1 ∧
    (checkMarketSellStatus cfgA envW4 stateW4 0).1.activeSellTPOrders
      = [⟨71, 100, 1, 99, 5000⟩] ∧
    (checkMarketSellStatus cfgA envW4 stateW4 0).1.isWaitingForMarketSell = false ∧
    (checkMarketSellStatus cfgA envW4 stateW4 0).1.pendingMarketSell = none ∧
    (checkMarketSellStatus cfgA envW4 stateW4 0).1.pendingNewTP = none := by
  have h := claim_C4_theorem cfgA envW4 stateW4 0 ⟨60, 1, 100, 105, 0, false, 0⟩
    ⟨102, 103⟩ (by norm_num [stateW4]) (by norm_num [envW4, filledS])
    (by norm_num [envW4])
  have hTP := (h.2.2.2.2.2.1 ⟨99, 1⟩ 71 (by norm_num [stateW4])
    (by norm_num [envW4])).1
  refine ⟨?_, ?_, ?_, h.2.2.1, h.2.2.2.1, h.2.2.2.2.1⟩
  · rw [h.1]
    norm_num [stateW4, initStats]
  · rw [h.2.1]
    norm_num [stateW4, initStats]
  · rw [hTP]
    norm_num [stateW4, cfgA, envW4, tpPriceOf, roundToTick_eq]

/-! ### Claim C10 -/

/-- Claim C10: when the pending market sell reports Filled but the
orderbook fetch fails, the sell price defaults to the pending sell's own
`buyPrice`, so the realised-P/L contribution is exactly 0; `sellFilled`
is still incremented, the wait sub-state still exits with
`pendingMarketSell`/`pendingNewTP` cleared, and a still-set
`pendingNewTP` is still materialised as a normal TP (when its placement
succeeds). -/
theorem claim_C10_theorem (cfg : Config) (env : Env) (s : BotState) (k : ℕ)
    (pms : PendingMarketSell)
    (hpms : s.pendingMarketSell = some pms)
    (hfilled : (env.status pms.orderId).filled = true)
    (hobnone : env.obMS = none) :
    (checkMarketSellStatus cfg env s k).1.stats.realProfit = s.stats.realProfit ∧
    (checkMarketSellStatus cfg env s k).1.stats.totalSellOrdersFilled
      = s.stats.totalSellOrdersFilled + 1 ∧
    (checkMarketSellStatus cfg env s k).1.isWaitingForMarketSell = false ∧
    (checkMarketSellStatus cfg env s k).1.pendingMarketSell = none ∧
    (checkMarketSellStatus cfg env s k).1.pendingNewTP = none ∧
    (∀ p oid, s.pendingNewTP = some p → env.place k = some oid →
      (checkMarketSellStatus cfg env s k).1.activeSellTPOrders
        = s.activeSellTPOrders
          ++ [⟨oid, tpPriceOf cfg p.buyPrice, p.qty, p.buyPrice, env.now⟩]) := by
  rcases hp : s.pendingNewTP with _ | p
  · simp only [checkMarketSellStatus, pushTP, hpms, hfilled, hobnone, hp]
    simp
  · rcases hpl : env.place k with _ | oid
    · simp only [checkMarketSellStatus, pushTP, hpms, hfilled, hobnone, hp, hpl]
      simp
    · simp only [checkMarketSellStatus, pushTP, hpms, hfilled, hobnone, hp, hpl]
      simp

/-- Witness for C10: same fill as the C4 witness but the fetch fails —
P/L stays 0, `sellFilled` becomes 1, the wait state clears, and the
pending TP (buy 99) still materialises as order 71 at price 100. -/
theorem claim_C10_witness :
    (checkMarketSellStatus cfgA envW10 stateW4 0).1.stats.realProfit = 0 ∧
    (checkMarketSellStatus cfgA envW10 stateW4 0).1.stats.totalSellOrdersFilled = 1 ∧
    (checkMarketSellStatus cfgA envW10 stateW4 0).1.isWaitingForMarketSell = false ∧
    (checkMarketSellStatus cfgA envW10 stateW4 0).1.activeSellTPOrders
      = [⟨71, 100, 1, 99, 5000⟩] := by
  have h := claim_C10_theorem cfgA envW10 stateW4 0 ⟨60, 1, 100, 105, 0, false, 0⟩
    (by norm_num [stateW4]) (by norm_num [envW10, filledS]) (by norm_num [envW10])
  refine ⟨?_, ?_, h.2.2.1, ?_⟩
  · rw [h.1]
    norm_num [stateW4, initStats]
  · rw [h.2.1]
    norm_num [stateW4, initStats]
  · have := h.2.2.2.2.2 ⟨99, 1⟩ 71 (by norm_num [stateW4]) (by norm_num [envW10])
    rw [this]
    norm_num [stateW4, cfgA, envW10, tpPriceOf, roundToTick_eq]


/-! ### Claim C5 -/

/-- Claim C5 counterexample: a pending sell that is *already* a limit
fallback (resting at 100) and 31 s old is cancel-and-replaced by the
30-second branch even though the bid (101) moved only one tick — the
source's `elapsed > 30 s` conversion is not guarded by
`isLimitFallback`, so a fallback is replaced without the
`|bestBid - limitPrice| > 2*tickSize` condition the claim requires. -/
theorem claim_C5_counterexample :
    stateC5.pendingMarketSell = some ⟨50, 1, 100, 105, 0, true, 100⟩ ∧
    |(101 : ℚ) - 100| ≤ cfgA.tickSize * 2 ∧
    (checkMarketSellStatus cfgA envC5 stateC5 0).1.pendingMarketSell
      = some ⟨77, 1, 100, 105, 31000, true, 101⟩ := by
  refine ⟨by norm_num [stateC5], by norm_num [cfgA], ?_⟩
  norm_num [checkMarketSellStatus, stateC5, envC5, roundToTick_eq, cfgA, notFilledS]

/-- Claim C5 (amended): while the pending sell is still open, the
30-second conversion (cancel, re-place a SELL limit at
`roundToTick(bestBid)`, mark `isLimitFallback`) fires whenever
`elapsed > 30 s` — regardless of whether the sell is already a limit
fallback; the guarded reprice (only if
`|bestBid - limitPrice| > 2*tickSize`) applies to a limit fallback only
in the window `10 s < elapsed ≤ 30 s`, and inside that window a
fallback within two ticks of the bid is left untouched. -/
theorem claim_C5_amended (cfg : Config) (env : Env) (s : BotState) (k : ℕ)
    (pms : PendingMarketSell)
    (hpms : s.pendingMarketSell = some pms)
    (hnf : (env.status pms.orderId).filled = false)
    (hnp : (env.status pms.orderId).partlyFilled = false) :
    (∀ (ob : Orderbook) (nid : ℕ),
      pms.timestamp + 30000 < env.now → env.obMS = some ob → env.place k = some nid →
      (checkMarketSellStatus cfg env s k).1.pendingMarketSell
        = some { pms with
                 orderId := nid,
                 timestamp := env.now,
                 isLimitFallback := true,
                 limitPrice := roundToTick cfg ob.bestBid }) ∧
    (∀ ob : Orderbook,
      ¬(pms.timestamp + 30000 < env.now) → pms.isLimitFallback = true →
      pms.timestamp + 10000 < env.now → env.obMS = some ob →
      ¬(cfg.tickSize * 2 < |ob.bestBid - pms.limitPrice|) →
      (checkMarketSellStatus cfg env s k).1 = s) ∧
    (∀ (ob : Orderbook) (nid : ℕ),
      ¬(pms.timestamp + 30000 < env.now) → pms.isLimitFallback = true →
      pms.timestamp + 10000 < env.now → env.obMS = some ob →
      cfg.tickSize * 2 < |ob.bestBid - pms.limitPrice| → env.place k = some nid →
      (checkMarketSellStatus cfg env s k).1.pendingMarketSell
        = some { pms with
                 orderId := nid,
                 timestamp := env.now,
                 limitPrice := roundToTick cfg ob.bestBid }) := by
  refine ⟨?_, ?_, ?_⟩
  · intro ob nid h30 hob hplace
    simp only [checkMarketSellStatus, hpms, hnf, hnp, h30, hob, hplace]
    simp
  · intro ob h30 hfb h10 hob hdiff
    simp only [checkMarketSellStatus, hpms, hnf, hnp, h30, hfb, h10, hob, hdiff]
    simp
  · intro ob nid h30 hfb h10 hob hdiff hplace
    simp only [checkMarketSellStatus, hpms, hnf, hnp, h30, hfb, h10, hob, hdiff, hplace]
    simp

/-- Witness for C5 (amended), 30-second branch: the 31-second-old
fallback at 100 is replaced by order 77 resting at the rounded bid 101. -/
theorem claim_C5_witness :
    (checkMarketSellStatus cfgA envC5 stateC5 0).1.pendingMarketSell
      = some ⟨77, 1, 100, 105, 31000, true, 101⟩ := by
  have h := (claim_C5_amended cfgA envC5 stateC5 0 ⟨50, 1, 100, 105, 0, true, 100⟩
      (by norm_num [stateC5]) (by norm_num [envC5, notFilledS])
      (by norm_num [envC5, notFilledS])).1
    ⟨101, 102⟩ 77 (by norm_num [envC5]) (by norm_num [envC5]) (by norm_num [envC5])
  rw [h]
  norm_num [roundToTick_eq, cfgA, envC5]

/-! ### Claim C6 -/

/-- Claim C6 counterexample: with the 1-slot TP set full (order 9) and
the market-sell placement failing, the engine clears the wait state but
creates *no* TP for the triggering fill (99, 1): `sellCreated` stays 0
and the TP set ends empty — there is no fallback to the normal
`tpPrice` in this path. -/
theorem claim_C6_counterexample :
    (createSellTPOrder cfgC env6 99 1 state6 0).1.isWaitingForMarketSell = false ∧
    (createSellTPOrder cfgC env6 99 1 state6 0).1.pendingMarketSell = none ∧
    (createSellTPOrder cfgC env6 99 1 state6 0).1.pendingNewTP = none ∧
    (createSellTPOrder cfgC env6 99 1 state6 0).1.stats.totalSellOrdersCreated = 0 ∧
    (createSellTPOrder cfgC env6 99 1 state6 0).1.activeSellTPOrders = [] := by
  norm_num [createSellTPOrder, highestTPIdx, highestScan, removeFirstByOrderId,
    state6, env6, cfgC, initStats, defaultTPOrder]

/-- Claim C6 (amended): if placing the market SELL for the evicted TP
fails, the engine aborts the wait state — `waitingForMarketSell` is
cleared, no `pendingMarketSell` is recorded, `pendingNewTP` is cleared —
but it does *not* fall back to creating the new TP: no TP is created in
this invocation, and the evicted TP stays canceled. -/
theorem claim_C6_amended (cfg : Config) (env : Env) (s : BotState) (k : ℕ)
    (buyPrice qty : ℚ)
    (hlen : cfg.maxSellTPOrders ≤ s.activeSellTPOrders.length)
    (hne : s.activeSellTPOrders ≠ [])
    (hfail : env.place k = none) :
    (createSellTPOrder cfg env buyPrice qty s k).1.isWaitingForMarketSell = false ∧
    (createSellTPOrder cfg env buyPrice qty s k).1.pendingMarketSell
      = s.pendingMarketSell ∧
    (createSellTPOrder cfg env buyPrice qty s k).1.pendingNewTP = none ∧
    (createSellTPOrder cfg env buyPrice qty s k).1.stats.totalSellOrdersCreated
      = s.stats.totalSellOrdersCreated ∧
    (createSellTPOrder cfg env buyPrice qty s k).1.activeSellTPOrders
      = s.activeSellTPOrders.eraseIdx (highestTPIdx s.activeSellTPOrders) ∧
    (createSellTPOrder cfg env buyPrice qty s k).1.stats.totalSellOrdersCanceled
      = s.stats.totalSellOrdersCanceled + 1 := by
  rcases hl : s.activeSellTPOrders with _ | ⟨t, ts⟩
  · exact absurd hl hne
  · rw [hl] at hlen
    simp only [createSellTPOrder, hl, hlen, if_true, hfail]
    simp [hl]

/-- Witness for C6 (amended) at the 1-slot cap with every placement
failing. -/
theorem claim_C6_witness :
    (createSellTPOrder cfgC env6 99 1 state6 0).1.isWaitingForMarketSell = false ∧
    (createSellTPOrder cfgC env6 99 1 state6 0).1.pendingMarketSell
      = state6.pendingMarketSell ∧
    (createSellTPOrder cfgC env6 99 1 state6 0).1.pendingNewTP = none ∧
    (createSellTPOrder cfgC env6 99 1 state6 0).1.stats.totalSellOrdersCreated
      = state6.stats.totalSellOrdersCreated := by
  have h := claim_C6_amended cfgC env6 state6 0 99 1
    (by norm_num [cfgC, state6]) (by norm_num [state6]) (by norm_num [env6])
  exact ⟨h.1, h.2.1, h.2.2.1, h.2.2.2.1⟩


/-! ### Claim C7: ladder-size bound -/

/-- The reshuffle step never changes the number of open BUYs. -/
lemma conflictAdjust_length (cfg : Config) (layer : ℕ) (p0 : ℚ)
    (buys : List BuyOrder) (eps : List ℚ) :
    ((conflictAdjust cfg layer p0 buys eps).2.2).length = buys.length := by
  unfold conflictAdjust
  repeat' split
  all_goals (try simp)
  all_goals (repeat' split)
  all_goals simp [List.length_set]

/-- The layer loop never grows the book beyond `maxBuyOrders`. -/
lemma createBuyLoop_length (cfg : Config) (env : Env) (bestBid : ℚ)
    (existingLayers : List ℕ) :
    ∀ (ls : List ℕ) (buys : List BuyOrder) (eps : List ℚ) (stats : Stats) (k : ℕ),
      buys.length < cfg.maxBuyOrders →
      (createBuyLoop cfg env bestBid existingLayers ls buys eps stats k).1.length
        ≤ cfg.maxBuyOrders := by
  intro ls
  induction ls with
  | nil =>
    intro buys eps stats k h
    simpa [createBuyLoop] using h.le
  | cons layer more ih =>
    intro buys eps stats k h
    have hca := conflictAdjust_length cfg layer (buyPriceForLayer cfg bestBid layer) buys eps
    unfold createBuyLoop
    split
    · exact ih buys eps stats k h
    · dsimp only
      split
      · exact ih buys eps stats k h
      · rcases hpl : env.place k with _ | oid
        · simp only [hpl]
          split
          · rw [hca]
            exact h.le
          · apply ih
            rw [hca]
            exact h
        · simp only [hpl]
          split
          · simp only [List.length_append, List.length_cons, List.length_nil, hca]
            omega
          · apply ih
            simp only [List.length_append, List.length_cons, List.length_nil, hca]
            rename_i hnotfull
            simp only [List.length_append, List.length_cons, List.length_nil, hca] at hnotfull
            omega


/-- BUY reconciliation only ever removes orders. -/
lemma updateBuyOrdersGo_length (cfg : Config) (env : Env) (bestBid : ℚ) :
    ∀ (l : List BuyOrder) (s : BotState) (k : ℕ),
      (updateBuyOrdersGo cfg env bestBid l s k).1.length ≤ l.length := by
  intro l
  induction l with
  | nil => intro s k; simp [updateBuyOrdersGo]
  | cons o rest ih =>
    intro s k
    unfold updateBuyOrdersGo
    dsimp only
    split_ifs
    all_goals (first | exact le_trans (ih _ _) (Nat.le_succ _) | simpa using ih _ _)

/-- The BUY book after `updateBuyOrders` is the kept list of the loop. -/
lemma updateBuyOrders_buys (cfg : Config) (env : Env) (bestBid : ℚ)
    (s : BotState) (k : ℕ) :
    (updateBuyOrders cfg env bestBid s k).1.activeBuyOrders
      = (updateBuyOrdersGo cfg env bestBid s.activeBuyOrders s k).1 := rfl

/-- The top-up step respects the `maxBuyOrders` cap. -/
lemma createBuyOrders_length (cfg : Config) (env : Env) (bestBid : ℚ)
    (s : BotState) (k : ℕ)
    (h : s.activeBuyOrders.length ≤ cfg.maxBuyOrders) :
    (createBuyOrders cfg env bestBid s k).1.activeBuyOrders.length
      ≤ cfg.maxBuyOrders := by
  unfold createBuyOrders
  split
  · rename_i hlt
    split
    · simpa using h
    · simpa using createBuyLoop_length cfg env bestBid
        (s.activeBuyOrders.map (fun o => o.layer)) (List.range cfg.maxBuyOrders)
        s.activeBuyOrders (s.activeBuyOrders.map (fun o => o.price)) s.stats k hlt
  · simpa using h

/-- One tick keeps the open-BUY count within `maxBuyOrders`. -/
lemma tick_buys_length (cfg : Config) (env : Env) (s : BotState)
    (h : s.activeBuyOrders.length ≤ cfg.maxBuyOrders) :
    (tick cfg env s).activeBuyOrders.length ≤ cfg.maxBuyOrders := by
  have h1 : (tickWaitStep cfg env s).activeBuyOrders = s.activeBuyOrders := by
    unfold tickWaitStep
    split
    · exact (checkMarketSellStatus_preserves cfg env s 0).1
    · rfl
  unfold tick
  split
  · split
    · rw [h1]
      exact h
    · dsimp only
      split
      · rw [(updateSellTPOrders_preserves cfg env _ _).1]
        apply createBuyOrders_length
        rw [updateBuyOrders_buys]
        exact le_trans (updateBuyOrdersGo_length cfg env _ _ _ _) (by rw [h1]; exact h)
      · split
        · rw [(updateSellTPOrders_preserves cfg env _ _).1]
          simp
        · rw [(updateSellTPOrders_preserves cfg env _ _).1, h1]
          exact h
  · exact h


/-! ### Claim C7: conditional layer distinctness of the top-up step -/

/-- When the computed price conflicts with no open order, the reshuffle
step is the identity. -/
lemma conflictAdjust_no_conflict (cfg : Config) (layer : ℕ) (p0 : ℚ)
    (buys : List BuyOrder) (eps : List ℚ)
    (h : ∀ o ∈ buys, ¬(|o.price - p0| < cfg.tickSize / 2)) :
    conflictAdjust cfg layer p0 buys eps = (false, p0, buys) := by
  have hidx : buys.findIdx? (fun o => |o.price - p0| < cfg.tickSize / 2) = none := by
    rw [List.findIdx?_eq_none_iff]
    intro o ho
    simpa using h o ho
  unfold conflictAdjust
  rw [hidx]

/-- Appending freshly laid layers that avoid the snapshot keeps the
layer indices distinct. -/
lemma nodup_base_append_news (base news : List BuyOrder)
    (hbase : (base.map (fun o => o.layer)).Nodup)
    (hnews : (news.map (fun o => o.layer)).Nodup)
    (hdisj : ∀ n ∈ news, n.layer ∉ base.map (fun o => o.layer)) :
    (((base ++ news).map (fun o => o.layer))).Nodup := by
  rw [List.map_append, List.nodup_append]
  refine ⟨hbase, hnews, ?_⟩
  intro a ha hb
  obtain ⟨n, hn, hna⟩ := List.mem_map.mp hb
  exact hdisj n hn (hna ▸ ha)

/-- The layer loop preserves layer distinctness when no computed price
for a missing layer falls inside the half-tick conflict window of an
already-open order: every iteration then either skips or appends a
fresh layer, and no reshuffle relabeling happens. -/
lemma createBuyLoop_nodup (cfg : Config) (env : Env) (bestBid : ℚ)
    (base : List BuyOrder)
    (ht : 0 < cfg.tickSize) (hstep : 1 ≤ cfg.layerStepTicks)
    (hbase : (base.map (fun o => o.layer)).Nodup)
    (H : ∀ ℓ, ℓ ∉ base.map (fun o => o.layer) → ∀ o ∈ base,
      ¬(|o.price - buyPriceForLayer cfg bestBid ℓ| < cfg.tickSize / 2)) :
    ∀ (ls : List ℕ) (news : List BuyOrder) (eps : List ℚ) (stats : Stats) (k : ℕ),
      ls.Nodup →
      (∀ n ∈ news, n.price = buyPriceForLayer cfg bestBid n.layer ∧
        n.layer ∉ base.map (fun o => o.layer) ∧ n.layer ∉ ls) →
      ((news.map (fun o => o.layer))).Nodup →
      ((createBuyLoop cfg env bestBid (base.map (fun o => o.layer))
          ls (base ++ news) eps stats k).1.map (fun o => o.layer)).Nodup := by
  intro ls
  induction ls with
  | nil =>
    intro news eps stats k _ hnews hnodup
    simp only [createBuyLoop]
    exact nodup_base_append_news base news hbase hnodup (fun n hn => (hnews n hn).2.1)
  | cons layer more ih =>
    intro news eps stats k hls hnews hnodup
    have hls' : more.Nodup := (List.nodup_cons.mp hls).2
    have hlayer_more : layer ∉ more := (List.nodup_cons.mp hls).1
    unfold createBuyLoop
    dsimp only
    by_cases hcont : (base.map (fun o => o.layer)).contains layer
    · rw [if_pos (by simpa using hcont)]
      exact ih news eps stats k hls'
        (fun n hn => ⟨(hnews n hn).1, (hnews n hn).2.1,
          fun hm => (hnews n hn).2.2 (List.mem_cons_of_mem _ hm)⟩) hnodup
    · rw [if_neg (by simpa using hcont)]
      have hmem : layer ∉ base.map (fun o => o.layer) := by
        simpa using hcont
      -- the computed price conflicts with nothing on the current book
      have hnoc : ∀ o ∈ base ++ news,
          ¬(|o.price - buyPriceForLayer cfg bestBid layer| < cfg.tickSize / 2) := by
        intro o ho
        rcases List.mem_append.mp ho with hob | hon
        · exact H layer hmem o hob
        · have hne : o.layer ≠ layer := by
            intro hEq
            exact (hnews o hon).2.2 (hEq ▸ List.mem_cons_self _ _)
          have hgap := buyPriceForLayer_gap cfg bestBid o.layer layer hne ht hstep
          rw [(hnews o hon).1]
          intro habs
          have : cfg.tickSize / 2 < cfg.tickSize := by linarith
          linarith
      rw [conflictAdjust_no_conflict cfg layer _ _ _ hnoc]
      dsimp only
      rw [if_neg (by simp)]
      rcases hpl : env.place k with _ | oid
      · dsimp only
        split
        · exact nodup_base_append_news base news hbase hnodup (fun n hn => (hnews n hn).2.1)
        · exact ih news (eps ++ [buyPriceForLayer cfg bestBid layer]) stats (k + 1) hls'
            (fun n hn => ⟨(hnews n hn).1, (hnews n hn).2.1,
              fun hm => (hnews n hn).2.2 (List.mem_cons_of_mem _ hm)⟩) hnodup
      · dsimp only
        have hnews' : ∀ n ∈ news ++
            ([⟨oid, buyPriceForLayer cfg bestBid layer, cfg.orderQty, 0, env.now, layer⟩]
              : List BuyOrder),
            n.price = buyPriceForLayer cfg bestBid n.layer ∧
            n.layer ∉ base.map (fun o => o.layer) ∧ n.layer ∉ more := by
          intro n hn
          rcases List.mem_append.mp hn with hn | hn
          · exact ⟨(hnews n hn).1, (hnews n hn).2.1,
              fun hm => (hnews n hn).2.2 (List.mem_cons_of_mem _ hm)⟩
          · rcases List.mem_singleton.mp hn with rfl
            exact ⟨rfl, hmem, hlayer_more⟩
        have hnodup' : ((news ++
            ([⟨oid, buyPriceForLayer cfg bestBid layer, cfg.orderQty, 0, env.now, layer⟩]
              : List BuyOrder)).map (fun o => o.layer)).Nodup := by
          rw [List.map_append, List.nodup_append]
          refine ⟨hnodup, by simp, ?_⟩
          intro a ha hb
          simp only [List.map_cons, List.map_nil, List.mem_singleton] at hb
          obtain ⟨n, hn, hna⟩ := List.mem_map.mp ha
          subst hb
          rw [← hna] at *
          exact (hnews n hn).2.2 (List.mem_cons_self _ _)
        split
        · rw [List.append_assoc]
          exact nodup_base_append_news base
            (news ++ [⟨oid, buyPriceForLayer cfg bestBid layer, cfg.orderQty, 0, env.now, layer⟩])
            hbase hnodup' (fun n hn => (hnews' n hn).2.1)
        · rw [List.append_assoc]
          exact ih (news ++ [⟨oid, buyPriceForLayer cfg bestBid layer, cfg.orderQty, 0, env.now, layer⟩])
            (eps ++ [buyPriceForLayer cfg bestBid layer])
            { stats with totalBuyOrdersCreated := stats.totalBuyOrdersCreated + 1 } (k + 1)
            hls' hnews' hnodup'


/-- Conflict-free top-up preserves layer distinctness. -/
lemma createBuyOrders_nodup (cfg : Config) (env : Env) (bestBid : ℚ)
    (s : BotState) (k : ℕ)
    (ht : 0 < cfg.tickSize) (hstep : 1 ≤ cfg.layerStepTicks)
    (hnd : (s.activeBuyOrders.map (fun o => o.layer)).Nodup)
    (H : ∀ ℓ, ℓ ∉ s.activeBuyOrders.map (fun o => o.layer) →
      ∀ o ∈ s.activeBuyOrders,
        ¬(|o.price - buyPriceForLayer cfg bestBid ℓ| < cfg.tickSize / 2)) :
    ((createBuyOrders cfg env bestBid s k).1.activeBuyOrders.map (fun o => o.layer)).Nodup := by
  unfold createBuyOrders
  split
  · split
    · simpa using hnd
    · have := createBuyLoop_nodup cfg env bestBid s.activeBuyOrders ht hstep hnd H
        (List.range cfg.maxBuyOrders) [] (s.activeBuyOrders.map (fun o => o.price)) s.stats k
        (List.nodup_range _) (by simp) (by simp)
      simpa using this
  · simpa using hnd

/-- Claim C7 counterexample: starting from a fresh bot, tick 1 (bid 99)
lays layers 0 @ 99 and 1 @ 98; in tick 2 (bid 100) the layer-1 order
fills, and the re-laid layer-1 price 99 collides with the surviving
layer-0 order @ 99 — the reshuffle relabels that order to layer 1 *and*
posts the new order at layer 1, so the tick ends Running with two open
BUYs both at layer index 1. -/
theorem claim_C7_counterexample :
    (tick cfgB envB2 (tick cfgB envB1 initialState)).isRunning = true ∧
    ((tick cfgB envB2 (tick cfgB envB1 initialState)).activeBuyOrders.map
      (fun o => o.layer)) = [1, 1] ∧
    ¬((tick cfgB envB2 (tick cfgB envB1 initialState)).activeBuyOrders.map
      (fun o => o.layer)).Nodup := by
  have heval : ((tick cfgB envB2 (tick cfgB envB1 initialState)).activeBuyOrders.map
      (fun o => o.layer)) = [1, 1] ∧
      (tick cfgB envB2 (tick cfgB envB1 initialState)).isRunning = true := by
    constructor <;>
      norm_num [tick, tickWaitStep, checkMarketSellStatus, updateBuyOrders, updateBuyOrdersGo,
        createBuyOrders, createBuyLoop, conflictAdjust, updateSellTPOrders, updateTPGo,
        createSellTPOrder, pushTP, buyPriceForLayer, roundToTick_eq, tpPriceOf, highestTPIdx,
        highestScan, removeFirstByOrderId, initialState, initStats, cfgB, envB1, envB2,
        defaultBuyOrder, defaultTPOrder, List.range_succ, notFilledS, filledS]
  refine ⟨heval.2, heval.1, ?_⟩
  rw [heval.1]
  simp

/-- Claim C7 (amended): at the end of every tick the number of open BUY
orders stays within `maxBuyOrders`; the layer indices of the open BUYs
stay pairwise distinct across the top-up step provided no computed layer
price falls within half a tick of an already-open order — when such a
collision happens, the reshuffle can relabel the colliding order onto an
index that another open BUY (or the new order itself) already carries
(see the counterexample). -/
theorem claim_C7_amended (cfg : Config) (env : Env) :
    (∀ s : BotState, s.activeBuyOrders.length ≤ cfg.maxBuyOrders →
      (tick cfg env s).activeBuyOrders.length ≤ cfg.maxBuyOrders) ∧
    (∀ (bestBid : ℚ) (s : BotState) (k : ℕ),
      0 < cfg.tickSize → 1 ≤ cfg.layerStepTicks →
      (s.activeBuyOrders.map (fun o => o.layer)).Nodup →
      (∀ ℓ, ℓ ∉ s.activeBuyOrders.map (fun o => o.layer) →
        ∀ o ∈ s.activeBuyOrders,
          ¬(|o.price - buyPriceForLayer cfg bestBid ℓ| < cfg.tickSize / 2)) →
      ((createBuyOrders cfg env bestBid s k).1.activeBuyOrders.map
        (fun o => o.layer)).Nodup) :=
  ⟨fun s h => tick_buys_length cfg env s h,
   fun bestBid s k ht hstep hnd H => createBuyOrders_nodup cfg env bestBid s k ht hstep hnd H⟩

/-- Witness for C7 (amended): the cap bound on a fresh bot's first tick,
and layer distinctness of a conflict-free top-up from the empty book. -/
theorem claim_C7_witness :
    (tick cfgB envB1 initialState).activeBuyOrders.length ≤ cfgB.maxBuyOrders ∧
    ((createBuyOrders cfgB envB1 99 initialState 0).1.activeBuyOrders.map
      (fun o => o.layer)).Nodup :=
  ⟨(claim_C7_amended cfgB envB1).1 initialState (by norm_num [initialState]),
   (claim_C7_amended cfgB envB1).2 99 initialState 0 (by norm_num [cfgB])
     (by norm_num [cfgB]) (by norm_num [initialState]) (by norm_num [initialState])⟩


/-! ### Claim C8: pendingPositions ↔ open-TP correspondence -/

/-- Removing a pendingPositions entry by id acts as `eraseFirstId` on
the id sequence. -/
lemma removeFirst_map (ps : List PendingPosition) (oid : ℕ) :
    (removeFirstByOrderId ps oid).map (fun p => p.orderId)
      = eraseFirstId (ps.map (fun p => p.orderId)) oid := by
  induction ps with
  | nil => rfl
  | cons p rest ih =>
    unfold removeFirstByOrderId eraseFirstId
    split
    · rename_i h
      simp [h]
    · rename_i h
      simp only [List.map_cons]
      rw [if_neg h]
      simp [ih]

/-- Dropping the first occurrence of an id that is absent from the
prefix removes exactly the marked element. -/
lemma eraseFirstId_append_not_mem (x : ℕ) : ∀ (l₁ l₂ : List ℕ), x ∉ l₁ →
    eraseFirstId (l₁ ++ x :: l₂) x = l₁ ++ l₂ := by
  intro l₁
  induction l₁ with
  | nil => intro l₂ _; simp [eraseFirstId]
  | cons y ys ih =>
    intro l₂ hx
    have hyx : y ≠ x := fun h => hx (h ▸ List.mem_cons_self _ _)
    simp only [List.cons_append, eraseFirstId, if_neg hyx]
    exact congrArg (fun t => y :: t) (ih l₂ (fun h => hx (List.mem_cons_of_mem _ h)))

/-- On a duplicate-free list, dropping the first occurrence of the `i`-th
element is `eraseIdx i`. -/
lemma eraseFirstId_get_nodup : ∀ (l : List ℕ), l.Nodup → ∀ (i : ℕ) (h : i < l.length),
    eraseFirstId l (l.get ⟨i, h⟩) = l.eraseIdx i := by
  intro l
  induction l with
  | nil => intro _ i h; simp at h
  | cons x xs ih =>
    intro hnd i h
    match i, h with
    | 0, h => simp [eraseFirstId]
    | i + 1, h =>
      have hx : x ∉ xs := (List.nodup_cons.mp hnd).1
      have hne : x ≠ xs.get ⟨i, by simpa using h⟩ :=
        fun hEq => hx (hEq ▸ xs.get_mem _ _)
      simp only [List.get_cons_succ, eraseFirstId, List.eraseIdx_cons_succ, if_neg hne]
      rw [ih (List.nodup_cons.mp hnd).2 i (by simpa using h)]

/-- `map` commutes with `eraseIdx`. -/
lemma map_eraseIdx {α β : Type} (f : α → β) : ∀ (l : List α) (i : ℕ),
    (l.eraseIdx i).map f = (l.map f).eraseIdx i := by
  intro l
  induction l with
  | nil => intro i; simp
  | cons x xs ih =>
    intro i
    match i with
    | 0 => simp
    | i + 1 => simp [ih i]

/-- The TP-fill loop keeps the pendingPositions id sequence equal to the
(ids already kept) ++ (ids of the TPs it keeps). -/
lemma updateTPGo_positions (env : Env) : ∀ (l : List TPOrder) (s : BotState) (pre : List ℕ),
    s.stats.pendingPositions.map (fun p => p.orderId) = pre ++ l.map (fun o => o.orderId) →
    (pre ++ l.map (fun o => o.orderId)).Nodup →
    (updateTPGo env l s).2.2.stats.pendingPositions.map (fun p => p.orderId)
      = pre ++ ((updateTPGo env l s).1.map (fun o => o.orderId)) := by
  intro l
  induction l with
  | nil =>
    intro s pre hmap _
    simpa [updateTPGo] using hmap
  | cons o rest ih =>
    intro s pre hmap hnd
    have hnotpre : o.orderId ∉ pre := by
      rcases List.nodup_append.mp hnd with ⟨_, _, hdisj⟩
      intro hmem
      exact hdisj hmem (List.mem_cons_self _ _)
    unfold updateTPGo
    split
    · -- filled: drop the TP, drop its pendingPositions entry
      dsimp only
      have hmap' : (removeFirstByOrderId s.stats.pendingPositions o.orderId).map
          (fun p => p.orderId) = pre ++ rest.map (fun o => o.orderId) := by
        rw [removeFirst_map, hmap]
        exact eraseFirstId_append_not_mem o.orderId pre _ hnotpre
      have hnd' : (pre ++ rest.map (fun o => o.orderId)).Nodup := by
        have hsub : (pre ++ rest.map (fun o => o.orderId)).Sublist
            (pre ++ o.orderId :: rest.map (fun o => o.orderId)) :=
          List.Sublist.append_left (List.sublist_cons_self _ _) pre
        exact (by simpa using hnd : (pre ++ o.orderId ::
          rest.map (fun o => o.orderId)).Nodup).sublist hsub
      exact ih _ pre hmap' hnd'
    · -- kept: shift the kept id into the prefix
      dsimp only
      have hmap' : s.stats.pendingPositions.map (fun p => p.orderId)
          = (pre ++ [o.orderId]) ++ rest.map (fun o => o.orderId) := by
        rw [hmap]
        simp
      have hnd' : ((pre ++ [o.orderId]) ++ rest.map (fun o => o.orderId)).Nodup := by
        simpa using hnd
      have := ih s (pre ++ [o.orderId]) hmap' hnd'
      rw [this]
      simp


/-- TP reconciliation (with the opportunistic pending-TP resolution)
preserves the correspondence. -/
lemma updateSellTPOrders_consistent (cfg : Config) (env : Env) (s : BotState) (k : ℕ)
    (hc : TPConsistent s)
    (hnd : (s.activeSellTPOrders.map (fun o => o.orderId)).Nodup) :
    TPConsistent (updateSellTPOrders cfg env s k).1 := by
  have h5 := updateTPGo_positions env s.activeSellTPOrders s []
    (by simpa using hc) (by simpa using hnd)
  simp only [List.nil_append] at h5
  unfold updateSellTPOrders pushTP TPConsistent
  repeat' split
  all_goals (try simp_all [TPConsistent])
  all_goals (repeat' split)
  all_goals simp_all [TPConsistent]

/-- The TP manager (normal path and overflow eviction) preserves the
correspondence. -/
lemma createSellTPOrder_consistent (cfg : Config) (env : Env) (bp q : ℚ)
    (s : BotState) (k : ℕ)
    (hc : TPConsistent s)
    (hnd : (s.activeSellTPOrders.map (fun o => o.orderId)).Nodup) :
    TPConsistent (createSellTPOrder cfg env bp q s k).1 := by
  by_cases hcap : cfg.maxSellTPOrders ≤ s.activeSellTPOrders.length
  · rcases hl : s.activeSellTPOrders with _ | ⟨t, ts⟩
    · unfold createSellTPOrder
      rw [hl] at hcap ⊢
      rw [if_pos hcap]
      exact hc
    · have hne : s.activeSellTPOrders ≠ [] := by rw [hl]; simp
      obtain ⟨hidx, -, -⟩ := highestTPIdx_spec s.activeSellTPOrders hne
      have hgetD : s.activeSellTPOrders.getD (highestTPIdx s.activeSellTPOrders) defaultTPOrder
          = s.activeSellTPOrders.get ⟨highestTPIdx s.activeSellTPOrders, hidx⟩ :=
        List.getD_eq_get _ _ hidx
      have hidx' : highestTPIdx s.activeSellTPOrders
          < (s.activeSellTPOrders.map (fun o => o.orderId)).length := by
        simpa using hidx
      have key : (removeFirstByOrderId s.stats.pendingPositions
            (s.activeSellTPOrders.getD (highestTPIdx s.activeSellTPOrders)
              defaultTPOrder).orderId).map (fun p => p.orderId)
          = ((s.activeSellTPOrders.eraseIdx (highestTPIdx s.activeSellTPOrders)).map
              (fun o => o.orderId)) := by
        rw [removeFirst_map, hc, map_eraseIdx, hgetD]
        have hgm : (s.activeSellTPOrders.map (fun o => o.orderId)).get
            ⟨highestTPIdx s.activeSellTPOrders, hidx'⟩
            = (s.activeSellTPOrders.get
                ⟨highestTPIdx s.activeSellTPOrders, hidx⟩).orderId := by
          simp
        rw [← hgm]
        exact eraseFirstId_get_nodup _ hnd _ hidx'
      unfold createSellTPOrder TPConsistent
      rw [if_pos hcap]
      rw [hl] at key ⊢
      dsimp only
      split
      · simpa using key
      · simpa using key
  · unfold createSellTPOrder
    rw [if_neg hcap]
    rcases hpl : env.place k with _ | oid
    · simpa [hpl] using hc
    · simp only [hpl]
      unfold pushTP TPConsistent
      have hcx : s.stats.pendingPositions.map (fun p => p.orderId)
          = s.activeSellTPOrders.map (fun o => o.orderId) := hc
      simp [hcx]

/-- Cancel-all drains pendingPositions completely. -/
lemma cancelAllTPGo_drains : ∀ (l : List TPOrder) (st : Stats),
    st.pendingPositions.map (fun p => p.orderId) = l.map (fun o => o.orderId) →
    (cancelAllTPGo l st).pendingPositions = [] := by
  intro l
  induction l with
  | nil =>
    intro st hmap
    simpa [cancelAllTPGo] using List.map_eq_nil.mp hmap
  | cons o rest ih =>
    intro st hmap
    unfold cancelAllTPGo
    apply ih
    rw [removeFirst_map, hmap]
    simp [eraseFirstId]

/-- `cancelAllTPOrders` preserves (trivially re-establishes) the
correspondence. -/
lemma cancelAllTPOrders_consistent (s : BotState) (hc : TPConsistent s) :
    TPConsistent (cancelAllTPOrders s) := by
  unfold cancelAllTPOrders TPConsistent
  simp only
  rw [cancelAllTPGo_drains s.activeSellTPOrders s.stats hc]
  simp

/-- The stop-time flatten loop drains pendingPositions provided every
market placement succeeds. -/
lemma sellAllGo_drains (bestAsk : ℚ) (place : ℕ → Option ℕ) :
    ∀ (l : List TPOrder) (st : Stats) (k0 : ℕ),
    st.pendingPositions.map (fun p => p.orderId) = l.map (fun o => o.orderId) →
    (∀ j, j < l.length → (place (k0 + j)).isSome) →
    (sellAllGo bestAsk place l st k0).pendingPositions = [] := by
  intro l
  induction l with
  | nil =>
    intro st k0 hmap _
    simpa [sellAllGo] using List.map_eq_nil.mp hmap
  | cons o rest ih =>
    intro st k0 hmap hsucc
    have h0 : (place k0).isSome := by simpa using hsucc 0 (by simp)
    obtain ⟨oid, hoid⟩ := Option.isSome_iff_exists.mp h0
    unfold sellAllGo
    rw [hoid]
    apply ih
    · rw [removeFirst_map, hmap]
      simp [eraseFirstId]
    · intro j hj
      have h1 := hsucc (j + 1) (by simpa using Nat.succ_lt_succ hj)
      have h2 : k0 + 1 + j = k0 + (j + 1) := by omega
      rw [h2]
      exact h1

/-- Stop-time flatten preserves the correspondence when every market
placement succeeds (it also trivially holds when the orderbook fetch
fails, via cancel-all). -/
lemma sellAllAtMarket_consistent (ob : Orderbook) (place : ℕ → Option ℕ)
    (s : BotState) (hc : TPConsistent s)
    (hsucc : ∀ j, j < s.activeSellTPOrders.length → (place j).isSome) :
    TPConsistent (sellAllAtMarket (some ob) place s) := by
  unfold sellAllAtMarket
  split
  · exact hc
  · unfold TPConsistent
    simp only
    rw [sellAllGo_drains ob.bestAsk place s.activeSellTPOrders s.stats 0 hc
      (by simpa using hsucc)]
    simp


/-- Claim C8 counterexample: in the stop-time flatten, a failed market
placement books no fill and does *not* remove the TP's pendingPositions
entry, yet the TP list is emptied afterwards — the state that results
from flattening `state8` (one TP, order 5) with an always-failing
placement has an empty TP set but a non-empty pendingPositions, so the
claimed one-to-one correspondence is broken. -/
theorem claim_C8_counterexample :
    TPConsistent state8 ∧
    (sellAllAtMarket (some ⟨100, 101⟩) (fun _ => none) state8).activeSellTPOrders = [] ∧
    (sellAllAtMarket (some ⟨100, 101⟩) (fun _ => none) state8).stats.pendingPositions
      = [⟨5, 100, 1, 101⟩] ∧
    ¬TPConsistent (sellAllAtMarket (some ⟨100, 101⟩) (fun _ => none) state8) := by
  refine ⟨by norm_num [TPConsistent, state8, initStats], ?_, ?_, ?_⟩ <;>
    norm_num [TPConsistent, sellAllAtMarket, sellAllGo, cancelAllTPOrders, cancelAllTPGo,
      removeFirstByOrderId, state8, initStats]

/-- Claim C8 (amended): the id-for-id correspondence between
`pendingPositions` and the open TP set is preserved by TP
creation/eviction (`createSellTPOrder`), by TP-fill reconciliation
(`updateSellTPOrders`), by cancel-all, and by the stop-time flatten
*provided every market placement succeeds* — a failed placement in the
flatten leaves an orphan pendingPositions entry (see the
counterexample). -/
theorem claim_C8_amended (cfg : Config) (env : Env) :
    (∀ (bp q : ℚ) (s : BotState) (k : ℕ), TPConsistent s →
      (s.activeSellTPOrders.map (fun o => o.orderId)).Nodup →
      TPConsistent (createSellTPOrder cfg env bp q s k).1) ∧
    (∀ (s : BotState) (k : ℕ), TPConsistent s →
      (s.activeSellTPOrders.map (fun o => o.orderId)).Nodup →
      TPConsistent (updateSellTPOrders cfg env s k).1) ∧
    (∀ s : BotState, TPConsistent s → TPConsistent (cancelAllTPOrders s)) ∧
    (∀ (ob : Orderbook) (place : ℕ → Option ℕ) (s : BotState), TPConsistent s →
      (∀ j, j < s.activeSellTPOrders.length → (place j).isSome) →
      TPConsistent (sellAllAtMarket (some ob) place s)) :=
  ⟨fun bp q s k hc hnd => createSellTPOrder_consistent cfg env bp q s k hc hnd,
   fun s k hc hnd => updateSellTPOrders_consistent cfg env s k hc hnd,
   fun s hc => cancelAllTPOrders_consistent s hc,
   fun ob place s hc hsucc => sellAllAtMarket_consistent ob place s hc hsucc⟩

/-- Witness for C8 (amended) on the one-TP state `state8`: a successful
normal TP creation, a reconciliation pass, a cancel-all and an
all-successful flatten each leave the correspondence intact. -/
theorem claim_C8_witness :
    TPConsistent (createSellTPOrder cfgA envW8 99 1 state8 0).1 ∧
    TPConsistent (updateSellTPOrders cfgA envW8 state8 0).1 ∧
    TPConsistent (cancelAllTPOrders state8) ∧
    TPConsistent (sellAllAtMarket (some ⟨100, 101⟩) (fun _ => some 222) state8) :=
  ⟨(claim_C8_amended cfgA envW8).1 99 1 state8 0
      (by norm_num [TPConsistent, state8, initStats]) (by norm_num [state8]),
   (claim_C8_amended cfgA envW8).2.1 state8 0
      (by norm_num [TPConsistent, state8, initStats]) (by norm_num [state8]),
   (claim_C8_amended cfgA envW8).2.2.1 state8
      (by norm_num [TPConsistent, state8, initStats]),
   (claim_C8_amended cfgA envW8).2.2.2 ⟨100, 101⟩ (fun _ => some 222) state8
      (by norm_num [TPConsistent, state8, initStats]) (by norm_num)⟩


/-! ### Claim C9 -/

/-- Every TP the reconciliation loop keeps was polled and found
not-Filled. -/
lemma updateTPGo_kept_not_filled (env : Env) : ∀ (l : List TPOrder) (s : BotState),
    ∀ o ∈ (updateTPGo env l s).1, (env.status o.orderId).filled = false := by
  intro l
  induction l with
  | nil => intro s o ho; simp [updateTPGo] at ho
  | cons x rest ih =>
    intro s o ho
    unfold updateTPGo at ho
    split at ho
    · exact ih _ o ho
    · rename_i hx
      dsimp only at ho
      rcases List.mem_cons.mp ho with h | h
      · subst h
        simpa using hx
      · exact ih _ o h

/-- After `updateSellTPOrders`, any open TP whose status reads Filled
can only be the TP created during this very call (timestamped now). -/
lemma updateSellTPOrders_filled_ts (cfg : Config) (env : Env) (s : BotState) (k : ℕ) :
    ∀ o ∈ (updateSellTPOrders cfg env s k).1.activeSellTPOrders,
      (env.status o.orderId).filled = true → o.timestamp = env.now := by
  intro o ho hf
  have hkept := updateTPGo_kept_not_filled env s.activeSellTPOrders s
  unfold updateSellTPOrders pushTP at ho
  dsimp only at ho
  split at ho
  · split at ho
    · split at ho
      · split at ho
        · simp only at ho
          rcases List.mem_append.mp ho with h | h
          · rw [hkept o h] at hf
            cases hf
          · rcases List.mem_singleton.mp h with rfl
            rfl
        · simp only at ho
          rw [hkept o ho] at hf
          cases hf
      · simp only at ho
        rw [hkept o ho] at hf
        cases hf
    · simp only at ho
      rw [hkept o ho] at hf
      cases hf
  · simp only at ho
    rw [hkept o ho] at hf
    cases hf

/-- Claim C9 counterexample: with the main orderbook fetch failing, the
tick ends without polling the open TP — order 7 is reported Filled by
the exchange, yet it stays in the TP set and `sellFilled` stays 0: the
per-TP reconciliation did not run this tick. -/
theorem claim_C9_counterexample :
    (env9.status 7).filled = true ∧
    (tick cfgA env9 state9).activeSellTPOrders = [⟨7, 101, 1, 100, 0⟩] ∧
    (tick cfgA env9 state9).stats.totalSellOrdersFilled = 0 := by
    refine ⟨by norm_num [env9, filledS], ?_, ?_⟩ <;>
      norm_num [tick, tickWaitStep, state9, env9, initStats]

/-- Claim C9 (amended): in every tick whose orderbook fetch succeeds —
whether the engine is running normally, paused, or waiting for the
market sell — the per-TP reconciliation runs: no TP that the exchange
reports Filled survives the tick unless it was created during the tick
itself (timestamped with the tick's clock).  When the fetch fails the
whole remainder of the tick, TP reconciliation included, is skipped
(see the counterexample). -/
theorem claim_C9_amended (cfg : Config) (env : Env) (s : BotState) (ob : Orderbook)
    (hrun : s.isRunning = true)
    (hob : env.obMain = some ob) :
    ∀ o ∈ (tick cfg env s).activeSellTPOrders,
      (env.status o.orderId).filled = true → o.timestamp = env.now := by
  unfold tick
  rw [hrun, hob]
  simp only [if_true]
  split
  · exact updateSellTPOrders_filled_ts cfg env _ _
  · split
    · exact updateSellTPOrders_filled_ts cfg env _ _
    · exact updateSellTPOrders_filled_ts cfg env _ _

/-- Witness for C9 (amended): a waiting tick whose fetch succeeds
reconciles the Filled TP 8 away and materialises the pending TP as
order 77 timestamped with the tick's clock, so the only surviving
Filled-reported TP is the one created this tick. -/
theorem claim_C9_witness :
    (⟨77, 100, 1, 99, 3000⟩ : TPOrder) ∈ (tick cfgA envW9b stateW9b).activeSellTPOrders ∧
    (⟨77, 100, 1, 99, 3000⟩ : TPOrder).timestamp = envW9b.now := by
  have hmem : (⟨77, 100, 1, 99, 3000⟩ : TPOrder)
      ∈ (tick cfgA envW9b stateW9b).activeSellTPOrders := by
    norm_num [tick, tickWaitStep, checkMarketSellStatus, updateSellTPOrders, updateTPGo,
      pushTP, tpPriceOf, roundToTick_eq, removeFirstByOrderId, stateW9b, envW9b, cfgA,
      initStats, filledS, notFilledS]
  exact ⟨hmem, claim_C9_amended cfgA envW9b stateW9b ⟨100, 101⟩
    (by norm_num [stateW9b]) (by norm_num [envW9b]) _ hmem
    (by norm_num [envW9b, filledS])⟩

end Scalping
